import Mathlib

/-!
# Fyllan: host-side client of the STM32 USART bootloader protocol

A shallow embedding of `main.c`.  The serial transport is a scripted byte
channel: `out` collects every byte the program writes to `fd`, `inp` holds the
bytes the device will still deliver.  Writes always complete; a read on an
exhausted script does not complete (outcome `starved`).  Machine integers are
`Nat` (unsigned) or `Int` (the C types `char` and `int`) with explicit
reductions; the byte order of the host and the signedness of plain `char` are
parameters (`Host`).  The padding loop of `write_memory` has no reachable
exit, so `write_memory` takes a step budget and reports `running` when it is
used up.
-/

namespace Fyllan

/-! ## Constants and records of `main.c` -/

def STM32_ACK : Nat := 0x79
def STM32_NACK : Nat := 0x1F
def STM32_CMD_INIT : Nat := 0x7F
def STM32_CMD_GET : Nat := 0x00

/-- The record `stm32_cmd_t`: eleven one-byte opcodes. -/
structure stm32_cmd_t where
  get : Nat
  gvr : Nat
  gid : Nat
  rm : Nat
  go : Nat
  wm : Nat
  er : Nat
  wp : Nat
  uw : Nat
  rp : Nat
  ur : Nat
  deriving DecidableEq, Repr

/-- The record `stm32_t`. -/
structure stm32_t where
  bl_version : Nat
  version : Nat
  option1 : Nat
  option2 : Nat
  pid : Nat
  cmd : stm32_cmd_t
  deriving DecidableEq, Repr

/-- The value `memset(&stm, 0, sizeof(stm32_t))` leaves behind. -/
def stm_zero : stm32_t :=
  { bl_version := 0, version := 0, option1 := 0, option2 := 0, pid := 0,
    cmd := { get := 0, gvr := 0, gid := 0, rm := 0, go := 0, wm := 0, er := 0,
             wp := 0, uw := 0, rp := 0, ur := 0 } }

/-- Implementation-defined properties of the host the program is compiled for:
the in-memory byte order of a `uint32_t` and the signedness of plain `char`. -/
structure Host where
  little_endian : Bool
  char_signed : Bool
  deriving DecidableEq, Repr

/-- The globals `stm` and `le`, the host, and the two directions of `fd`. -/
structure World where
  host : Host
  stm : stm32_t
  le : Bool
  out : List Nat
  inp : List Nat
  deriving DecidableEq, Repr

/-- How a call ends: it returns a value, an `assert` of the alignment kind
fails, a blocking `read` finds the device silent, or the step budget given to
a loop without a reachable exit is used up. In each case the world reached is
kept, so the bytes already written stay observable. -/
inductive Outcome (α : Type) where
  | ret (a : α) (w : World)
  | assert_failed (w : World)
  | starved (w : World)
  | running (w : World)
  deriving DecidableEq, Repr

/-- The world an outcome ends in. -/
def Outcome.world {α : Type} : Outcome α → World
  | .ret _ w => w
  | .assert_failed w => w
  | .starved w => w
  | .running w => w

/-- The returned value, when the call returned. -/
def Outcome.value {α : Type} : Outcome α → Option α
  | .ret a _ => some a
  | _ => none

/-- Computations of the program: world transformers with an outcome. -/
def M (α : Type) : Type := World → Outcome α

/-- Sequencing: the second computation runs only when the first returned. -/
def M.bind {α β : Type} (m : M α) (f : α → M β) : M β := fun w =>
  match m w with
  | .ret a w1 => f a w1
  | .assert_failed w1 => .assert_failed w1
  | .starved w1 => .starved w1
  | .running w1 => .running w1

/-- Returning a value leaves the world as it is. -/
def M.pure {α : Type} (a : α) : M α := fun w => .ret a w

instance : Monad M where
  pure := M.pure
  bind := M.bind

/-! ## Integer conversions -/

/-- The value of a `char` object holding the raw byte `b`. -/
def char_of_byte (signed : Bool) (b : Nat) : Int :=
  if signed && decide (128 ≤ b) then (b : Int) - 256 else (b : Int)

/-- Conversion to `uint8_t`. -/
def u8 (x : Int) : Nat := (x % 256).toNat

/-- The 32-bit two-complement pattern of an `int`. -/
def int_bits (x : Int) : Nat := (x % 4294967296).toNat

/-- The statement `--len` on a `uint8_t`. -/
def dec8 (n : Nat) : Nat := (n + 255) % 256

/-! ## Transport primitives -/

/-- The call `write(fd, p, n)`: the bytes are appended to what the device has
received. -/
def write_fd (bs : List Nat) : M Unit := fun w =>
  .ret () { w with out := w.out ++ bs }

/-- The call `read(fd, p, 1)` into a `uint8_t`: the next byte of the device. -/
def read_fd : M Nat := fun w =>
  match w.inp with
  | [] => .starved w
  | b :: rest => .ret b { w with inp := rest }

/-- The call `read(fd, &ret, 1)` into a `char` object (in `read_byte` under an
`assert`, in `send_command` unchecked). -/
def read_fd_char : M Int := fun w =>
  match w.inp with
  | [] => .starved w
  | b :: rest => .ret (char_of_byte w.host.char_signed b) { w with inp := rest }

/-- The global `stm`. -/
def get_stm : M stm32_t := fun w => .ret w.stm w

/-- An assignment to a part of the global `stm`. -/
def modify_stm (f : stm32_t → stm32_t) : M Unit := fun w =>
  .ret () { w with stm := f w.stm }

/-- The global `le`. -/
def get_le : M Bool := fun w => .ret w.le w

/-- An assignment to the global `le`. -/
def set_le (b : Bool) : M Unit := fun w => .ret () { w with le := b }

/-- The host the program runs on. -/
def get_host : M Host := fun w => .ret w.host w

/-- The statement `assert(c)`. -/
def c_assert (c : Bool) : M Unit := fun w =>
  if c then .ret () w else .assert_failed w

/-- The function `send_byte(char byte)`: one byte, the low eight bits of the
argument. -/
def send_byte (byte : Int) : M Unit := write_fd [u8 byte]

/-- The function `read_byte()`, whose result type is `char`. -/
def read_byte : M Int := read_fd_char

/-- The function `send_command(uint8_t cmd)`. -/
def send_command (cmd : Nat) : M Nat := do
  let cs := u8 (0xff - (cmd : Int))
  write_fd [cmd]
  write_fd [cs]
  let ret ← read_fd_char
  if ret ≠ (STM32_ACK : Int) then
    pure 0
  else
    pure 1

/-! ## Byte order -/

/-- The function `swap_u32`, with the global `le` it reads as an argument.
Left shifts are reduced modulo `2 ^ 32` as on a `uint32_t`. -/
def swap_u32 (le : Bool) (v : Nat) : Nat :=
  if le then
    ((v &&& 0xFF000000) >>> 24) |||
    ((v &&& 0x00FF0000) >>> 8) |||
    (((v &&& 0x0000FF00) <<< 8) % 4294967296) |||
    (((v &&& 0x000000FF) <<< 24) % 4294967296)
  else
    v

/-- The four bytes of a `uint32_t` object in memory order, lowest address
first: what `write(fd, &address, 4)` hands to the transport. -/
def mem_bytes (little_endian : Bool) (v : Nat) : List Nat :=
  if little_endian then
    [v % 256, (v >>> 8) % 256, (v >>> 16) % 256, (v >>> 24) % 256]
  else
    [(v >>> 24) % 256, (v >>> 16) % 256, (v >>> 8) % 256, v % 256]

/-- The endianness probe of `main`: `((unsigned char*)&x)[0] == 0x78` for
`x = 0x12345678`. -/
def detect_le (h : Host) : Bool :=
  (mem_bytes h.little_endian 0x12345678).headD 0 == 0x78

/-- The checksum expression both `read_memory` and `write_memory` evaluate on
the swapped address, stored in the `uint8_t cs`. -/
def address_cs (address : Nat) : Nat :=
  (((address &&& 0xFF000000) >>> 24) ^^^
   ((address &&& 0x00FF0000) >>> 16) ^^^
   ((address &&& 0x0000FF00) >>> 8) ^^^
   ((address &&& 0x000000FF) >>> 0)) % 256

/-! ## The handshake -/

/-- The loop `while(len-- > 0) read_byte();` on a `uint8_t len`. -/
def skip_bytes : Nat → M Unit
  | 0 => pure ()
  | len + 1 => do
      let _ ← read_byte
      skip_bytes len

/-- The last section of `init_stm32`, from the comment "get the device ID" to
`return 1`. In `(read_byte() << 8) | read_byte()` the left operand is
evaluated first, the shift of the promoted `int` multiplies by 256, and the
result is converted to the `uint16_t pid`. -/
def init_get_id : M Nat := do
  let stm ← get_stm
  let ok ← send_command stm.cmd.gid
  if ok = 0 then
    pure 0
  else do
    let c ← read_byte
    let len := u8 (c + 1)
    if len ≠ 2 then
      pure 0
    else do
      let hi ← read_byte
      let lo ← read_byte
      modify_stm (fun s =>
        { s with pid := (int_bits (hi * 256) ||| int_bits lo) % 65536 })
      let c ← read_byte
      if c ≠ (STM32_ACK : Int) then
        pure 0
      else
        pure 1

/-- The section of `init_stm32` under the comment "get the version and read
protection status", followed by the rest of the function. -/
def init_get_version : M Nat := do
  let stm ← get_stm
  let ok ← send_command stm.cmd.gvr
  if ok = 0 then
    pure 0
  else do
    let c ← read_byte
    modify_stm (fun s => { s with version := u8 c })
    let c ← read_byte
    modify_stm (fun s => { s with option1 := u8 c })
    let c ← read_byte
    modify_stm (fun s => { s with option2 := u8 c })
    let c ← read_byte
    if c ≠ (STM32_ACK : Int) then
      pure 0
    else
      init_get_id

/-- The section of `init_stm32` under the comment "get the bootloader
information", followed by the rest of the function. -/
def init_get : M Nat := do
  let ok ← send_command STM32_CMD_GET
  if ok = 0 then
    pure 0
  else do
    let c ← read_byte
    let len := u8 (c + 1)
    let c ← read_byte
    modify_stm (fun s => { s with bl_version := u8 c })
    let len := dec8 len
    let c ← read_byte
    modify_stm (fun s => { s with cmd := { s.cmd with get := u8 c } })
    let len := dec8 len
    let c ← read_byte
    modify_stm (fun s => { s with cmd := { s.cmd with gvr := u8 c } })
    let len := dec8 len
    let c ← read_byte
    modify_stm (fun s => { s with cmd := { s.cmd with gid := u8 c } })
    let len := dec8 len
    let c ← read_byte
    modify_stm (fun s => { s with cmd := { s.cmd with rm := u8 c } })
    let len := dec8 len
    let c ← read_byte
    modify_stm (fun s => { s with cmd := { s.cmd with go := u8 c } })
    let len := dec8 len
    let c ← read_byte
    modify_stm (fun s => { s with cmd := { s.cmd with wm := u8 c } })
    let len := dec8 len
    let c ← read_byte
    modify_stm (fun s => { s with cmd := { s.cmd with er := u8 c } })
    let len := dec8 len
    let c ← read_byte
    modify_stm (fun s => { s with cmd := { s.cmd with wp := u8 c } })
    let len := dec8 len
    let c ← read_byte
    modify_stm (fun s => { s with cmd := { s.cmd with uw := u8 c } })
    let len := dec8 len
    let c ← read_byte
    modify_stm (fun s => { s with cmd := { s.cmd with rp := u8 c } })
    let len := dec8 len
    let c ← read_byte
    modify_stm (fun s => { s with cmd := { s.cmd with ur := u8 c } })
    let len := dec8 len
    if 0 < len then skip_bytes len else pure ()
    let c ← read_byte
    if c ≠ (STM32_ACK : Int) then
      pure 0
    else
      init_get_version

/-- The function `init_stm32`: the reset of `stm` and the init byte, followed
by the three sections above. -/
def init_stm32 : M Nat := do
  modify_stm (fun _ => stm_zero)
  write_fd [STM32_CMD_INIT]
  let init ← read_fd
  if init ≠ STM32_ACK then
    pure 0
  else
    init_get

/-! ## Memory transfers -/

/-- The loop `while(len-- > 0) *data++ = read_byte();`: `p` is the distance of
the moving pointer from the start of the caller's buffer. -/
def read_data : Nat → Nat → List Nat → M (List Nat)
  | 0, _, data => pure data
  | len + 1, p, data => do
      let c ← read_byte
      read_data len (p + 1) (data.set p (u8 c))

/-- The function `read_memory`: the result pairs the returned flag with the
caller's buffer. -/
def read_memory (address : Nat) (data : List Nat) (len : Nat) :
    M (Nat × List Nat) := do
  c_assert (address % 4 == 0)
  let le ← get_le
  let address := swap_u32 le address
  let cs := address_cs address
  let stm ← get_stm
  let ok ← send_command stm.cmd.rm
  if ok = 0 then
    pure (0, data)
  else do
    let host ← get_host
    write_fd (mem_bytes host.little_endian address)
    send_byte cs
    let c ← read_byte
    if c ≠ (STM32_ACK : Int) then
      pure (0, data)
    else do
      let i := u8 ((len : Int) - 1)
      send_byte i
      send_byte (0xFF - (i : Int))
      let c ← read_byte
      if c ≠ (STM32_ACK : Int) then
        pure (0, data)
      else do
        let data ← read_data len 0 data
        pure (1, data)

/-- The loop `for(i = 0; i < len; ++i)` of `write_memory`, counted by the
iterations still to run; the result is the running checksum. -/
def write_data : Nat → List Nat → Nat → M Nat
  | 0, _, cs => pure cs
  | n + 1, data, cs => do
      let d := data.headD 0
      send_byte d
      write_data n data.tail (cs ^^^ d)

/-- The loop `for(i = len % 4; i >= 0; --i)` of `write_memory` on a
`uint8_t i`, run for at most `fuel` tests of its condition. -/
def write_padding : Nat → Nat → Nat → M Nat
  | 0, _, _ => fun w => Outcome.running w
  | fuel + 1, i, cs =>
      if (0 : Int) ≤ (i : Int) then do
        send_byte 0xFF
        write_padding fuel (dec8 i) (cs ^^^ 0xFF)
      else
        pure cs

/-- The function `write_memory`, with a step budget for its padding loop. -/
def write_memory (fuel : Nat) (address : Nat) (data : List Nat) (len : Nat) :
    M Nat := do
  c_assert (address % 4 == 0)
  let le ← get_le
  let address := swap_u32 le address
  let cs := address_cs address
  let stm ← get_stm
  let ok ← send_command stm.cmd.wm
  if ok = 0 then
    pure 0
  else do
    let host ← get_host
    write_fd (mem_bytes host.little_endian address)
    send_byte cs
    let c ← read_byte
    if c ≠ (STM32_ACK : Int) then
      pure 0
    else do
      let cs := u8 ((len : Int) - 1 + ((len % 4 : Nat) : Int))
      send_byte cs
      let cs ← write_data len data cs
      let cs ← write_padding fuel (len % 4) cs
      send_byte cs
      pure 1

/-- The part of `main` after the serial line is configured: the probe sets
`le`, then `init_stm32` and, when it succeeds, `read_memory(0, buffer,
(uint8_t)sizeof(buffer))` with a buffer of 256 bytes. -/
def main_body (buffer : List Nat) : M (List Nat) := do
  let host ← get_host
  set_le (detect_le host)
  let ok ← init_stm32
  if ok = 0 then
    pure buffer
  else do
    let r ← read_memory 0 buffer (256 % 256)
    pure r.2

/-- The world a fresh process starts in on host `h`, facing a device that will
deliver `script`. -/
def start (h : Host) (script : List Nat) : World :=
  { host := h, stm := stm_zero, le := detect_le h, out := [], inp := script }

/-! ## Auxiliary facts -/

theorem char_of_byte_eq_ack (s : Bool) (r : Nat) (hr : r < 256) :
    char_of_byte s r = (STM32_ACK : Int) ↔ r = STM32_ACK := by
  unfold char_of_byte STM32_ACK
  cases s <;> simp <;> (try split) <;> omega

theorem u8_char_of_byte (s : Bool) (r : Nat) (hr : r < 256) :
    u8 (char_of_byte s r) = r := by
  unfold char_of_byte u8
  cases s <;> simp <;> (try split) <;> omega

theorem u8_complement (c : Nat) (hc : c < 256) : u8 (0xff - (c : Int)) = 255 - c := by
  unfold u8; omega

set_option maxRecDepth 100000 in
theorem complement_eq_xor : ∀ c, c < 256 → 255 - c = c ^^^ 0xFF := by
  decide

/-! ### One step of the program at a time -/

@[simp] theorem run_pure {α : Type} (a : α) (w : World) :
    (pure a : M α) w = Outcome.ret a w := rfl

@[simp] theorem run_ite {α : Type} (c : Prop) [Decidable c] (f g : M α) (w : World) :
    (if c then f else g) w = if c then f w else g w := by
  split <;> rfl

theorem bind_run {α β : Type} (m : M α) (f : α → M β) (w w1 : World) (a : α)
    (hm : m w = Outcome.ret a w1) : (m >>= f) w = f a w1 := by
  show M.bind m f w = f a w1
  unfold M.bind
  rw [hm]

@[simp] theorem pure_bind_run {α β : Type} (a : α) (f : α → M β) (w : World) :
    ((pure a : M α) >>= f) w = f a w := rfl

@[simp] theorem write_fd_bind {β : Type} (bs : List Nat) (f : Unit → M β) (h : Host)
    (s : stm32_t) (le : Bool) (out inp : List Nat) :
    (write_fd bs >>= f) ⟨h, s, le, out, inp⟩ = f () ⟨h, s, le, out ++ bs, inp⟩ := rfl

@[simp] theorem send_byte_bind {β : Type} (x : Int) (f : Unit → M β) (h : Host)
    (s : stm32_t) (le : Bool) (out inp : List Nat) :
    (send_byte x >>= f) ⟨h, s, le, out, inp⟩ = f () ⟨h, s, le, out ++ [u8 x], inp⟩ := rfl

@[simp] theorem get_stm_bind {β : Type} (f : stm32_t → M β) (h : Host)
    (s : stm32_t) (le : Bool) (out inp : List Nat) :
    (get_stm >>= f) ⟨h, s, le, out, inp⟩ = f s ⟨h, s, le, out, inp⟩ := rfl

@[simp] theorem get_le_bind {β : Type} (f : Bool → M β) (h : Host)
    (s : stm32_t) (le : Bool) (out inp : List Nat) :
    (get_le >>= f) ⟨h, s, le, out, inp⟩ = f le ⟨h, s, le, out, inp⟩ := rfl

@[simp] theorem modify_stm_bind {β : Type} (g : stm32_t → stm32_t) (f : Unit → M β)
    (h : Host) (s : stm32_t) (le : Bool) (out inp : List Nat) :
    (modify_stm g >>= f) ⟨h, s, le, out, inp⟩ = f () ⟨h, g s, le, out, inp⟩ := rfl

@[simp] theorem c_assert_true_bind {β : Type} (f : Unit → M β) (w : World) :
    (c_assert true >>= f) w = f () w := rfl

@[simp] theorem c_assert_false_bind {β : Type} (f : Unit → M β) (w : World) :
    (c_assert false >>= f) w = Outcome.assert_failed w := rfl

@[simp] theorem read_byte_bind {β : Type} (f : Int → M β) (h : Host) (s : stm32_t)
    (le : Bool) (out rest : List Nat) (b : Nat) :
    (read_byte >>= f) ⟨h, s, le, out, b :: rest⟩ =
      f (char_of_byte h.char_signed b) ⟨h, s, le, out, rest⟩ := rfl

@[simp] theorem read_byte_bind_nil {β : Type} (f : Int → M β) (h : Host) (s : stm32_t)
    (le : Bool) (out : List Nat) :
    (read_byte >>= f) ⟨h, s, le, out, []⟩ = Outcome.starved ⟨h, s, le, out, []⟩ := rfl

@[simp] theorem read_fd_bind {β : Type} (f : Nat → M β) (h : Host) (s : stm32_t)
    (le : Bool) (out rest : List Nat) (b : Nat) :
    (read_fd >>= f) ⟨h, s, le, out, b :: rest⟩ = f b ⟨h, s, le, out, rest⟩ := rfl

@[simp] theorem read_fd_bind_nil {β : Type} (f : Nat → M β) (h : Host) (s : stm32_t)
    (le : Bool) (out : List Nat) :
    (read_fd >>= f) ⟨h, s, le, out, []⟩ = Outcome.starved ⟨h, s, le, out, []⟩ := rfl

@[simp] theorem get_host_bind {β : Type} (f : Host → M β) (h : Host)
    (s : stm32_t) (le : Bool) (out inp : List Nat) :
    (get_host >>= f) ⟨h, s, le, out, inp⟩ = f h ⟨h, s, le, out, inp⟩ := rfl

@[simp] theorem set_le_bind {β : Type} (b : Bool) (f : Unit → M β) (h : Host)
    (s : stm32_t) (le : Bool) (out inp : List Nat) :
    (set_le b >>= f) ⟨h, s, le, out, inp⟩ = f () ⟨h, s, b, out, inp⟩ := rfl

@[simp] theorem read_fd_char_bind {β : Type} (f : Int → M β) (h : Host) (s : stm32_t)
    (le : Bool) (out rest : List Nat) (b : Nat) :
    (read_fd_char >>= f) ⟨h, s, le, out, b :: rest⟩ =
      f (char_of_byte h.char_signed b) ⟨h, s, le, out, rest⟩ := rfl

@[simp] theorem read_fd_char_bind_nil {β : Type} (f : Int → M β) (h : Host) (s : stm32_t)
    (le : Bool) (out : List Nat) :
    (read_fd_char >>= f) ⟨h, s, le, out, []⟩ = Outcome.starved ⟨h, s, le, out, []⟩ := rfl

theorem send_command_run (c r : Nat) (hr : r < 256) (h : Host) (s : stm32_t) (le : Bool)
    (out rest : List Nat) :
    send_command c ⟨h, s, le, out, r :: rest⟩ =
      Outcome.ret (if r = STM32_ACK then 1 else 0)
        ⟨h, s, le, out ++ [c, u8 (0xff - (c : Int))], rest⟩ := by
  simp only [send_command, write_fd_bind, read_fd_char_bind, run_ite, run_pure, ne_eq,
    char_of_byte_eq_ack _ r hr]
  by_cases h : r = STM32_ACK <;> simp [h]

theorem send_command_silent (c : Nat) (h : Host) (s : stm32_t) (le : Bool) (out : List Nat) :
    send_command c ⟨h, s, le, out, []⟩ =
      Outcome.starved ⟨h, s, le, out ++ [c, u8 (0xff - (c : Int))], []⟩ := by
  simp [send_command]

/-! ### Byte masks, the swap and the address checksum -/

theorem and_byte_mask (v s : Nat) : v &&& (255 <<< s) = ((v >>> s) % 256) <<< s := by
  apply Nat.eq_of_testBit_eq
  intro i
  have h255 : (255 : Nat) = 2 ^ 8 - 1 := by norm_num
  have h256 : (256 : Nat) = 2 ^ 8 := by norm_num
  rw [h255, h256]
  simp only [Nat.testBit_and, Nat.testBit_shiftLeft, Nat.testBit_two_pow_sub_one,
    Nat.testBit_mod_two_pow, Nat.testBit_shiftRight]
  by_cases hi : s ≤ i
  · have : s + (i - s) = i := by omega
    simp [hi, this, Bool.and_comm]
  · simp [hi]

theorem mask3 (v : Nat) : v &&& 0xFF000000 = (v / 16777216 % 256) * 16777216 := by
  have h := and_byte_mask v 24
  have hc : (255 <<< 24 : Nat) = 0xFF000000 := by decide
  rw [hc] at h
  rw [h, Nat.shiftLeft_eq, Nat.shiftRight_eq_div_pow]

theorem mask2 (v : Nat) : v &&& 0x00FF0000 = (v / 65536 % 256) * 65536 := by
  have h := and_byte_mask v 16
  have hc : (255 <<< 16 : Nat) = 0x00FF0000 := by decide
  rw [hc] at h
  rw [h, Nat.shiftLeft_eq, Nat.shiftRight_eq_div_pow]

theorem mask1 (v : Nat) : v &&& 0x0000FF00 = (v / 256 % 256) * 256 := by
  have h := and_byte_mask v 8
  have hc : (255 <<< 8 : Nat) = 0x0000FF00 := by decide
  rw [hc] at h
  rw [h, Nat.shiftLeft_eq, Nat.shiftRight_eq_div_pow]

theorem mask0 (v : Nat) : v &&& 0x000000FF = v % 256 := by
  have h := and_byte_mask v 0
  simpa using h

theorem or_shifted (a b : Nat) (i : Nat) (ha : a < 2 ^ i) : a ||| b * 2 ^ i = a + b * 2 ^ i := by
  rw [Nat.or_comm, Nat.mul_comm, ← Nat.mul_add_lt_is_or ha b, Nat.add_comm]

theorem or_bytes (a b c d : Nat) (ha : a < 256) (hb : b < 256) (hc : c < 256) :
    a ||| b * 256 ||| c * 65536 ||| d * 16777216 = a + b * 256 + c * 65536 + d * 16777216 := by
  have h1 : a ||| b * 256 = a + b * 256 := or_shifted a b 8 (by omega)
  have h2 : a + b * 256 ||| c * 65536 = a + b * 256 + c * 65536 :=
    or_shifted (a + b * 256) c 16 (by omega)
  have h3 : a + b * 256 + c * 65536 ||| d * 16777216 = a + b * 256 + c * 65536 + d * 16777216 :=
    or_shifted (a + b * 256 + c * 65536) d 24 (by omega)
  rw [h1, h2, h3]

theorem byte_sum_parts (b3 b2 b1 b0 : Nat) (h3 : b3 < 256) (h2 : b2 < 256) (h1 : b1 < 256)
    (h0 : b0 < 256) :
    (b3 + b2 * 256 + b1 * 65536 + b0 * 16777216) / 16777216 % 256 = b0 ∧
    (b3 + b2 * 256 + b1 * 65536 + b0 * 16777216) / 65536 % 256 = b1 ∧
    (b3 + b2 * 256 + b1 * 65536 + b0 * 16777216) / 256 % 256 = b2 ∧
    (b3 + b2 * 256 + b1 * 65536 + b0 * 16777216) % 256 = b3 := by
  refine ⟨?_, ?_, ?_, ?_⟩ <;> omega

theorem swap_u32_le (v : Nat) :
   swap_u32 true v = v / 16777216 % 256 + (v / 65536 % 256) * 256 + (v / 256 % 256) * 65536 + (v % 256) * 16777216 := by
  simp only [swap_u32, if_true, mask3, mask2, mask1, mask0, Nat.shiftLeft_eq, Nat.shiftRight_eq_div_pow]
  have e1 : v / 16777216 % 256 * 16777216 / 2 ^ 24 = v / 16777216 % 256 := by norm_num
  have e2 : v / 65536 % 256 * 65536 / 2 ^ 8 = (v / 65536 % 256) * 256 := by norm_num; omega
  have e3 : v / 256 % 256 * 256 * 2 ^ 8 % 4294967296 = (v / 256 % 256) * 65536 := by norm_num; omega
  have e4 : v % 256 * 2 ^ 24 % 4294967296 = (v % 256) * 16777216 := by norm_num; omega
  rw [e1, e2, e3, e4]
  exact or_bytes _ _ _ _ (Nat.mod_lt _ (by norm_num)) (Nat.mod_lt _ (by norm_num)) (Nat.mod_lt _ (by norm_num))

theorem address_cs_bytes (v : Nat) :
    address_cs v = (v / 16777216 % 256) ^^^ (v / 65536 % 256) ^^^ (v / 256 % 256) ^^^ (v % 256) := by
  simp only [address_cs, mask3, mask2, mask1, mask0, Nat.shiftRight_eq_div_pow]
  have e1 : v / 16777216 % 256 * 16777216 / 2 ^ 24 = v / 16777216 % 256 := by norm_num
  have e2 : v / 65536 % 256 * 65536 / 2 ^ 16 = (v / 65536 % 256) := by norm_num
  have e3 : v / 256 % 256 * 256 / 2 ^ 8 = (v / 256 % 256) := by norm_num
  have e4 : v % 256 / 2 ^ 0 = (v % 256)  := by norm_num
  rw [e1, e2, e3, e4]
  apply Nat.mod_eq_of_lt
  have h8 : ∀ x, x % 256 < 2 ^ 8 := fun x => by norm_num; exact Nat.mod_lt _ (by norm_num)
  have := Nat.xor_lt_two_pow (Nat.xor_lt_two_pow (Nat.xor_lt_two_pow (h8 (v / 16777216)) (h8 (v / 65536))) (h8 (v / 256))) (h8 v)
  norm_num at this
  exact this

theorem xor_mod_256 (a b : Nat) : (a ^^^ b) % 256 = (a % 256) ^^^ (b % 256) := by
  apply Nat.eq_of_testBit_eq
  intro i
  have h256 : (256 : Nat) = 2 ^ 8 := by norm_num
  rw [h256]
  simp only [Nat.testBit_xor, Nat.testBit_mod_two_pow]
  by_cases hi : i < 8 <;> simp [hi]

theorem address_cs_swap (le : Bool) (v : Nat) :
    address_cs (swap_u32 le v) = address_cs v := by
  cases le
  · rfl
  · rw [address_cs_bytes, address_cs_bytes, swap_u32_le]
    obtain ⟨e1, e2, e3, e4⟩ := byte_sum_parts (v / 16777216 % 256) (v / 65536 % 256)
      (v / 256 % 256) (v % 256) (Nat.mod_lt _ (by norm_num)) (Nat.mod_lt _ (by norm_num))
      (Nat.mod_lt _ (by norm_num)) (Nat.mod_lt _ (by norm_num))
    rw [e1, e2, e3, e4]
    ac_rfl

theorem mem_bytes_swap (little : Bool) (v : Nat) (hv : v < 4294967296) :
    mem_bytes little (swap_u32 little v) = [v / 16777216, v / 65536 % 256, v / 256 % 256, v % 256] := by
  have hv3 : v / 16777216 % 256 = v / 16777216 := by omega
  cases little
  · simp [mem_bytes, swap_u32, Nat.shiftRight_eq_div_pow, hv3]
  · rw [swap_u32_le]
    obtain ⟨e1, e2, e3, e4⟩ := byte_sum_parts (v / 16777216 % 256) (v / 65536 % 256)
      (v / 256 % 256) (v % 256) (Nat.mod_lt _ (by norm_num)) (Nat.mod_lt _ (by norm_num))
      (Nat.mod_lt _ (by norm_num)) (Nat.mod_lt _ (by norm_num))
    simp only [mem_bytes, if_true, Nat.shiftRight_eq_div_pow]
    norm_num
    rw [e1, e2, e3, e4, hv3]
    simp
/-! ### Commands and loops -/

theorem send_command_bind {β : Type} (c r : Nat) (hr : r < 256) (f : Nat → M β) (h : Host)
    (s : stm32_t) (le : Bool) (out rest : List Nat) :
    (send_command c >>= f) ⟨h, s, le, out, r :: rest⟩ =
      f (if r = STM32_ACK then 1 else 0) ⟨h, s, le, out ++ [c, u8 (0xff - (c : Int))], rest⟩ :=
  bind_run _ _ _ _ _ (send_command_run c r hr h s le out rest)

@[simp] theorem send_command_bind_ack {β : Type} (c : Nat) (f : Nat → M β) (h : Host)
    (s : stm32_t) (le : Bool) (out rest : List Nat) :
    (send_command c >>= f) ⟨h, s, le, out, STM32_ACK :: rest⟩ =
      f 1 ⟨h, s, le, out ++ [c, u8 (0xff - (c : Int))], rest⟩ :=
  send_command_bind c STM32_ACK (by decide) f h s le out rest

@[simp] theorem send_command_bind_nil {β : Type} (c : Nat) (f : Nat → M β) (h : Host)
    (s : stm32_t) (le : Bool) (out : List Nat) :
    (send_command c >>= f) ⟨h, s, le, out, []⟩ =
      Outcome.starved ⟨h, s, le, out ++ [c, u8 (0xff - (c : Int))], []⟩ := by
  show M.bind (send_command c) f _ = _
  unfold M.bind
  rw [send_command_silent]

@[simp] theorem char_ack (sg : Bool) : char_of_byte sg STM32_ACK = (STM32_ACK : Int) :=
  (char_of_byte_eq_ack _ _ (by decide)).2 rfl

theorem bind_pure_world {α β : Type} (m : M α) (g : α → β) (w : World) :
    ((m >>= fun x => pure (g x)) w).world = (m w).world := by
  show (M.bind m _ w).world = _
  unfold M.bind
  cases m w <;> rfl

theorem detect_le_eq (h : Host) : detect_le h = h.little_endian := by
  obtain ⟨l, c⟩ := h
  cases l <;> rfl

theorem read_data_out (len p : Nat) (data : List Nat) (w : World) :
    (read_data len p data w).world.out = w.out := by
  induction len generalizing p data w with
  | zero => rfl
  | succ n ih =>
    obtain ⟨h, s, le, out, inp⟩ := w
    cases inp with
    | nil => simp [read_data, Outcome.world]
    | cons b rest =>
      simp only [read_data, read_byte_bind]
      exact ih _ _ _

theorem write_data_run (n : Nat) (data : List Nat) (cs : Nat) (h : Host) (s : stm32_t)
    (le : Bool) (out inp : List Nat) :
    ∃ cs1 sent, sent.length = n ∧
      write_data n data cs ⟨h, s, le, out, inp⟩ =
        Outcome.ret cs1 ⟨h, s, le, out ++ sent, inp⟩ := by
  induction n generalizing data cs out with
  | zero => exact ⟨cs, [], rfl, by simp [write_data]⟩
  | succ n ih =>
    obtain ⟨cs1, sent, hlen, hrun⟩ := ih data.tail (cs ^^^ data.headD 0) (out ++ [u8 (data.headD 0 : Nat)])
    refine ⟨cs1, u8 (data.headD 0 : Nat) :: sent, by simp [hlen], ?_⟩
    simp only [write_data, send_byte_bind]
    rw [hrun]
    simp

theorem write_padding_run (fuel i cs : Nat) (h : Host) (s : stm32_t) (le : Bool)
    (out inp : List Nat) :
    write_padding fuel i cs ⟨h, s, le, out, inp⟩ =
      Outcome.running ⟨h, s, le, out ++ List.replicate fuel 0xFF, inp⟩ := by
  induction fuel generalizing i cs out with
  | zero => simp [write_padding]
  | succ n ih =>
    have hi : (0 : Int) ≤ (i : Int) := Int.ofNat_nonneg i
    simp only [write_padding, hi, if_true, send_byte_bind]
    rw [ih]
    simp [u8, List.replicate_succ]

theorem u8_nat (b : Nat) (hb : b < 256) : u8 (b : Int) = b := by
  unfold u8; omega

@[simp] theorem u8_u8 (x : Int) : u8 ((u8 x : Nat) : Int) = u8 x := by
  unfold u8; omega

theorem address_cs_lt (v : Nat) : address_cs v < 256 := by
  unfold address_cs
  exact Nat.mod_lt _ (by norm_num)


theorem read_memory_sent_address (a len : Nat) (data : List Nat) (ha : a % 4 = 0) (h : Host)
    (s : stm32_t) (le : Bool) (out rest : List Nat) :
    ∃ tail, (read_memory a data len ⟨h, s, le, out, STM32_ACK :: rest⟩).world.out =
      out ++ [s.cmd.rm, u8 (0xff - (s.cmd.rm : Int))] ++
        mem_bytes h.little_endian (swap_u32 le a) ++ [address_cs (swap_u32 le a)] ++ tail := by
  rcases rest with _ | ⟨r2, rest2⟩
  · refine ⟨[], ?_⟩
    simp [read_memory, ha, Outcome.world, u8_nat _ (address_cs_lt _)]
  · by_cases h2 : char_of_byte h.char_signed r2 = (STM32_ACK : Int)
    · refine ⟨[u8 ((len : Int) - 1), u8 (0xFF - (u8 ((len : Int) - 1) : Int))], ?_⟩
      rcases rest2 with _ | ⟨r3, rest3⟩
      · simp [read_memory, ha, Outcome.world, u8_nat _ (address_cs_lt _), h2]
      · by_cases h3 : char_of_byte h.char_signed r3 = (STM32_ACK : Int)
        · simp only [read_memory, ha, beq_self_eq_true, c_assert_true_bind, get_le_bind,
            get_stm_bind, get_host_bind, send_command_bind_ack, one_ne_zero, if_false, run_ite, write_fd_bind,
            send_byte_bind, read_byte_bind, h2, h3, ne_eq, not_true_eq_false]
          rw [bind_pure_world, read_data_out]
          simp [u8_nat _ (address_cs_lt _)]
        · simp [read_memory, ha, Outcome.world, u8_nat _ (address_cs_lt _), h2, h3]
    · refine ⟨[], ?_⟩
      simp [read_memory, ha, Outcome.world, u8_nat _ (address_cs_lt _), h2]

theorem write_memory_sent_address (fuel a len : Nat) (data : List Nat) (ha : a % 4 = 0)
    (h : Host) (s : stm32_t) (le : Bool) (out rest : List Nat) :
    ∃ tail, (write_memory fuel a data len ⟨h, s, le, out, STM32_ACK :: rest⟩).world.out =
      out ++ [s.cmd.wm, u8 (0xff - (s.cmd.wm : Int))] ++
        mem_bytes h.little_endian (swap_u32 le a) ++ [address_cs (swap_u32 le a)] ++ tail := by
  rcases rest with _ | ⟨r2, rest2⟩
  · refine ⟨[], ?_⟩
    simp [write_memory, ha, Outcome.world, u8_nat _ (address_cs_lt _)]
  · by_cases h2 : char_of_byte h.char_signed r2 = (STM32_ACK : Int)
    · obtain ⟨cs1, sent, -, hrun⟩ := write_data_run len data
        (u8 ((len : Int) - 1 + ((len % 4 : Nat) : Int))) h s le
        (out ++ [s.cmd.wm, u8 (0xff - (s.cmd.wm : Int))] ++
          mem_bytes h.little_endian (swap_u32 le a) ++ [address_cs (swap_u32 le a)] ++
          [u8 ((len : Int) - 1 + ((len % 4 : Nat) : Int))]) rest2
      refine ⟨[u8 ((len : Int) - 1 + ((len % 4 : Nat) : Int))] ++ sent ++
        List.replicate fuel 0xFF, ?_⟩
      simp only [write_memory, ha, beq_self_eq_true, c_assert_true_bind, get_le_bind,
        get_stm_bind, get_host_bind, send_command_bind_ack, one_ne_zero, if_false, run_ite,
        write_fd_bind, send_byte_bind, read_byte_bind, h2, ne_eq, not_true_eq_false,
        u8_nat _ (address_cs_lt _), u8_u8]
      rw [bind_run _ _ _ _ _ hrun]
      show (M.bind _ _ _).world.out = _
      unfold M.bind
      rw [write_padding_run]
      simp [Outcome.world]
    · refine ⟨[], ?_⟩
      simp [write_memory, ha, Outcome.world, u8_nat _ (address_cs_lt _), h2]

theorem be_bytes_eq (a : Nat) :
    [a >>> 24, (a >>> 16) &&& 0xFF, (a >>> 8) &&& 0xFF, a &&& 0xFF] =
      [a / 16777216, a / 65536 % 256, a / 256 % 256, a % 256] := by
  simp only [mask0, Nat.shiftRight_eq_div_pow]

theorem xor_bytes_eq (a : Nat) :
    ((a >>> 24) ^^^ (a >>> 16) ^^^ (a >>> 8) ^^^ a) % 256 = address_cs a := by
  rw [address_cs_bytes, xor_mod_256, xor_mod_256, xor_mod_256]
  simp only [Nat.shiftRight_eq_div_pow]


theorem read_data_returns (ds : List Nat) (p : Nat) (data : List Nat) (h : Host)
    (s : stm32_t) (le : Bool) (out rest : List Nat) :
    ∃ data1, read_data ds.length p data ⟨h, s, le, out, ds ++ rest⟩ =
      Outcome.ret data1 ⟨h, s, le, out, rest⟩ := by
  induction ds generalizing p data with
  | nil => exact ⟨data, rfl⟩
  | cons d ds ih =>
    obtain ⟨data1, h1⟩ := ih (p + 1) (data.set p (u8 (char_of_byte h.char_signed d)))
    exact ⟨data1, by simpa [read_data] using h1⟩

theorem read_data_run (ds : List Nat) (p : Nat) (data : List Nat) (h : Host)
    (s : stm32_t) (le : Bool) (out rest : List Nat) (hp : p + ds.length ≤ data.length)
    (hb : ∀ d ∈ ds, d < 256) :
    read_data ds.length p data ⟨h, s, le, out, ds ++ rest⟩ =
      Outcome.ret (data.take p ++ ds ++ data.drop (p + ds.length)) ⟨h, s, le, out, rest⟩ := by
  induction ds generalizing p data with
  | nil => simp [read_data]
  | cons d ds ih =>
    have hd : d < 256 := hb d (List.mem_cons_self _ _)
    have hlen : p + 1 + ds.length ≤ (data.set p d).length := by
      simp only [List.length_set]; simp only [List.length_cons] at hp; omega
    have hp1 : p < data.length := by simp only [List.length_cons] at hp; omega
    simp only [List.length_cons, read_data, List.cons_append, read_byte_bind, u8_char_of_byte _ d hd]
    rw [ih (p + 1) (data.set p d) hlen (fun x hx => hb x (List.mem_cons_of_mem _ hx))]
    congr 1
    rw [List.set_eq_take_append_cons_drop, if_pos hp1]
    simp [List.take_append_eq_append_take, List.take_take, List.drop_append_eq_append_drop, hp1.le]
    have e1 : List.drop (p + 1 + ds.length) (List.take p data) = [] := by
      apply List.drop_eq_nil_of_le
      simp only [List.length_take]
      omega
    have e2 : p + 1 + ds.length - p = ds.length + 1 := by omega
    rw [e1, e2, List.nil_append, List.drop_succ_cons, List.drop_drop]
    congr 1
    omega

theorem read_memory_run_acked (a len : Nat) (data rest : List Nat) (h4 : a % 4 = 0) (h : Host)
    (s : stm32_t) (le : Bool) (out : List Nat) :
    read_memory a data len ⟨h, s, le, out, STM32_ACK :: STM32_ACK :: STM32_ACK :: rest⟩ =
      (read_data len 0 data >>= fun d => pure (1, d)) ⟨h, s, le,
        out ++ [s.cmd.rm, u8 (0xff - (s.cmd.rm : Int))] ++
          mem_bytes h.little_endian (swap_u32 le a) ++ [address_cs (swap_u32 le a)] ++
          [u8 ((len : Int) - 1), u8 (0xFF - (u8 ((len : Int) - 1) : Int))], rest⟩ := by
  simp only [read_memory, h4, beq_self_eq_true, c_assert_true_bind, get_le_bind,
    get_stm_bind, get_host_bind, send_command_bind_ack, one_ne_zero, if_false, run_ite,
    write_fd_bind, send_byte_bind, read_byte_bind, char_ack, ne_eq, not_true_eq_false,
    u8_nat _ (address_cs_lt _), u8_u8, List.append_assoc, List.cons_append, List.nil_append]


/-! ### The sections of the handshake -/

theorem skip_bytes_run (ex : List Nat) (h : Host) (s : stm32_t) (le : Bool)
    (out rest : List Nat) :
    skip_bytes ex.length ⟨h, s, le, out, ex ++ rest⟩ = Outcome.ret () ⟨h, s, le, out, rest⟩ := by
  induction ex with
  | nil => rfl
  | cons d ex ih => simpa [skip_bytes] using ih

theorem skip_bytes_starved (n : Nat) (ex : List Nat) (hn : ex.length < n) (h : Host)
    (s : stm32_t) (le : Bool) (out : List Nat) :
    skip_bytes n ⟨h, s, le, out, ex⟩ = Outcome.starved ⟨h, s, le, out, []⟩ := by
  induction ex generalizing n with
  | nil =>
    cases n with
    | zero => simp at hn
    | succ n => simp [skip_bytes]
  | cons d ex ih =>
    cases n with
    | zero => simp at hn
    | succ n =>
      simp only [skip_bytes, read_byte_bind]
      exact ih n (by simpa using hn)

theorem skip_guard {β : Type} (len : Nat) (f : Unit → M β) :
    (if 0 < len then skip_bytes len >>= f else pure () >>= f) = (skip_bytes len >>= f) := by
  cases len with
  | zero => rfl
  | succ n => simp

theorem len_after_schema (sg : Bool) (n : Nat) (hn : n < 256) :
    dec8 (dec8 (dec8 (dec8 (dec8 (dec8 (dec8 (dec8 (dec8 (dec8 (dec8 (dec8
      (u8 (char_of_byte sg n + 1))))))))))))) = (n + 245) % 256 := by
  have h0 : u8 (char_of_byte sg n + 1) = (n + 1) % 256 := by
    unfold u8 char_of_byte
    cases sg <;> simp <;> (try split) <;> omega
  rw [h0]
  unfold dec8
  omega

theorem init_get_id_reject (l : Nat) (hl : l < 256) (hl1 : l ≠ 1) (h : Host) (s : stm32_t)
    (le : Bool) (out tail : List Nat) :
    init_get_id ⟨h, s, le, out, STM32_ACK :: l :: tail⟩ =
      Outcome.ret 0 ⟨h, s, le, out ++ [s.cmd.gid, u8 (0xff - (s.cmd.gid : Int))], tail⟩ := by
  have h0 : u8 (char_of_byte h.char_signed l + 1) ≠ 2 := by
    unfold u8 char_of_byte
    cases h.char_signed <;> simp <;> (try split) <;> omega
  simp [init_get_id, h0]

theorem init_get_id_accept (hi lo t : Nat) (ht : t < 256) (h : Host) (s : stm32_t)
    (le : Bool) (out rest : List Nat) :
    init_get_id ⟨h, s, le, out, STM32_ACK :: 1 :: hi :: lo :: t :: rest⟩ =
      Outcome.ret (if t = STM32_ACK then 1 else 0)
        ⟨h, { s with pid := (int_bits (char_of_byte h.char_signed hi * 256) |||
                int_bits (char_of_byte h.char_signed lo)) % 65536 },
          le, out ++ [s.cmd.gid, u8 (0xff - (s.cmd.gid : Int))], rest⟩ := by
  have h0 : u8 (char_of_byte h.char_signed 1 + 1) = 2 := by
    unfold u8 char_of_byte
    cases h.char_signed <;> simp
  simp only [init_get_id, get_stm_bind, send_command_bind_ack, one_ne_zero, if_false, run_ite,
    read_byte_bind, h0, ne_eq, not_true_eq_false, modify_stm_bind, char_of_byte_eq_ack _ t ht,
    run_pure]
  by_cases hq : t = STM32_ACK <;> simp [hq]

theorem init_get_version_run (v o1 o2 t : Nat) (hv : v < 256) (ho1 : o1 < 256) (ho2 : o2 < 256)
    (ht : t < 256) (h : Host) (s : stm32_t) (le : Bool) (out tail : List Nat) :
    init_get_version ⟨h, s, le, out, STM32_ACK :: v :: o1 :: o2 :: t :: tail⟩ =
      if t = STM32_ACK then
        init_get_id ⟨h, { s with version := v, option1 := o1, option2 := o2 }, le,
          out ++ [s.cmd.gvr, u8 (0xff - (s.cmd.gvr : Int))], tail⟩
      else
        Outcome.ret 0 ⟨h, { s with version := v, option1 := o1, option2 := o2 }, le,
          out ++ [s.cmd.gvr, u8 (0xff - (s.cmd.gvr : Int))], tail⟩ := by
  simp only [init_get_version, get_stm_bind, send_command_bind_ack, one_ne_zero, if_false,
    run_ite, read_byte_bind, ne_eq, modify_stm_bind, char_of_byte_eq_ack _ t ht, run_pure,
    u8_char_of_byte _ v hv, u8_char_of_byte _ o1 ho1, u8_char_of_byte _ o2 ho2]
  by_cases hq : t = STM32_ACK <;> simp [hq]

set_option maxRecDepth 8000 in
theorem init_get_run (n blv c1 c2 c3 c4 c5 c6 c7 c8 c9 c10 c11 t : Nat) (ex : List Nat)
    (hn : n < 256) (hex : ex.length = (n + 245) % 256) (hblv : blv < 256)
    (h1 : c1 < 256) (h2 : c2 < 256) (h3 : c3 < 256) (h4 : c4 < 256) (h5 : c5 < 256)
    (h6 : c6 < 256) (h7 : c7 < 256) (h8 : c8 < 256) (h9 : c9 < 256) (h10 : c10 < 256)
    (h11 : c11 < 256) (ht : t < 256) (h : Host) (s : stm32_t) (le : Bool)
    (out tail : List Nat) :
    init_get ⟨h, s, le, out, STM32_ACK :: n :: blv :: c1 :: c2 :: c3 :: c4 :: c5 :: c6 :: c7 ::
        c8 :: c9 :: c10 :: c11 :: (ex ++ t :: tail)⟩ =
      if t = STM32_ACK then
        init_get_version ⟨h, { s with
            bl_version := blv, cmd := ⟨c1, c2, c3, c4, c5, c6, c7, c8, c9, c10, c11⟩ }, le,
          out ++ [STM32_CMD_GET, u8 (0xff - (STM32_CMD_GET : Int))], tail⟩
      else
        Outcome.ret 0 ⟨h, { s with
            bl_version := blv, cmd := ⟨c1, c2, c3, c4, c5, c6, c7, c8, c9, c10, c11⟩ }, le,
          out ++ [STM32_CMD_GET, u8 (0xff - (STM32_CMD_GET : Int))], tail⟩ := by
  unfold init_get
  rw [send_command_bind_ack]
  simp only [one_ne_zero, if_false, run_ite]
  rw [read_byte_bind]
  simp only [read_byte_bind, modify_stm_bind]
  simp only [len_after_schema _ n hn, u8_char_of_byte _ blv hblv,
    u8_char_of_byte _ c1 h1, u8_char_of_byte _ c2 h2, u8_char_of_byte _ c3 h3,
    u8_char_of_byte _ c4 h4, u8_char_of_byte _ c5 h5, u8_char_of_byte _ c6 h6,
    u8_char_of_byte _ c7 h7, u8_char_of_byte _ c8 h8, u8_char_of_byte _ c9 h9,
    u8_char_of_byte _ c10 h10, u8_char_of_byte _ c11 h11]
  rw [skip_guard, ← hex, bind_run _ _ _ _ _ (skip_bytes_run ex _ _ _ _ _)]
  simp only [read_byte_bind, run_ite, ne_eq, char_of_byte_eq_ack _ t ht, run_pure]
  by_cases hq : t = STM32_ACK <;> simp [hq]

theorem init_stm32_run (r : Nat) (h : Host) (s : stm32_t) (le : Bool) (out tail : List Nat) :
    init_stm32 ⟨h, s, le, out, r :: tail⟩ =
      if r = STM32_ACK then init_get ⟨h, stm_zero, le, out ++ [STM32_CMD_INIT], tail⟩
      else Outcome.ret 0 ⟨h, stm_zero, le, out ++ [STM32_CMD_INIT], tail⟩ := by
  simp only [init_stm32, modify_stm_bind, write_fd_bind, read_fd_bind, run_ite, run_pure, ne_eq]
  by_cases hq : r = STM32_ACK <;> simp [hq]

set_option maxRecDepth 8000 in
theorem init_get_starved (n blv c1 c2 c3 c4 c5 c6 c7 c8 c9 c10 c11 : Nat) (ex : List Nat)
    (hn : n < 256) (hex : ex.length < (n + 245) % 256) (hblv : blv < 256)
    (h1 : c1 < 256) (h2 : c2 < 256) (h3 : c3 < 256) (h4 : c4 < 256) (h5 : c5 < 256)
    (h6 : c6 < 256) (h7 : c7 < 256) (h8 : c8 < 256) (h9 : c9 < 256) (h10 : c10 < 256)
    (h11 : c11 < 256) (h : Host) (s : stm32_t) (le : Bool) (out : List Nat) :
    init_get ⟨h, s, le, out, STM32_ACK :: n :: blv :: c1 :: c2 :: c3 :: c4 :: c5 :: c6 :: c7 ::
        c8 :: c9 :: c10 :: c11 :: ex⟩ =
      Outcome.starved ⟨h, { s with
          bl_version := blv, cmd := ⟨c1, c2, c3, c4, c5, c6, c7, c8, c9, c10, c11⟩ }, le,
        out ++ [STM32_CMD_GET, u8 (0xff - (STM32_CMD_GET : Int))], []⟩ := by
  unfold init_get
  rw [send_command_bind_ack]
  simp only [one_ne_zero, if_false, run_ite]
  rw [read_byte_bind]
  simp only [read_byte_bind, modify_stm_bind]
  simp only [len_after_schema _ n hn, u8_char_of_byte _ blv hblv,
    u8_char_of_byte _ c1 h1, u8_char_of_byte _ c2 h2, u8_char_of_byte _ c3 h3,
    u8_char_of_byte _ c4 h4, u8_char_of_byte _ c5 h5, u8_char_of_byte _ c6 h6,
    u8_char_of_byte _ c7 h7, u8_char_of_byte _ c8 h8, u8_char_of_byte _ c9 h9,
    u8_char_of_byte _ c10 h10, u8_char_of_byte _ c11 h11]
  rw [skip_guard]
  show M.bind _ _ _ = _
  unfold M.bind
  rw [skip_bytes_starved _ ex hex]

theorem get_frame : [STM32_CMD_GET, u8 (0xff - (STM32_CMD_GET : Int))] = [0x00, 0xFF] := by
  decide

theorem init_stm32_to_get_id (blv c1 c2 c3 c4 c5 c6 c7 c8 c9 c10 c11 ver op1 op2 : Nat)
    (hb : ∀ b ∈ [blv, c1, c2, c3, c4, c5, c6, c7, c8, c9, c10, c11, ver, op1, op2], b < 256)
    (h : Host) (s : stm32_t) (le : Bool) (out tail : List Nat) :
    init_stm32 ⟨h, s, le, out, STM32_ACK :: STM32_ACK :: 11 :: blv :: c1 :: c2 :: c3 :: c4 ::
        c5 :: c6 :: c7 :: c8 :: c9 :: c10 :: c11 :: STM32_ACK :: STM32_ACK :: ver :: op1 ::
        op2 :: STM32_ACK :: tail⟩ =
      init_get_id ⟨h, ⟨blv, ver, op1, op2, 0, ⟨c1, c2, c3, c4, c5, c6, c7, c8, c9, c10, c11⟩⟩, le,
        out ++ [0x7F, 0x00, 0xFF, c2, 255 - c2], tail⟩ := by
  have hblv : blv < 256 := hb blv (by simp)
  have h1 : c1 < 256 := hb c1 (by simp)
  have h2 : c2 < 256 := hb c2 (by simp)
  have h3 : c3 < 256 := hb c3 (by simp)
  have h4 : c4 < 256 := hb c4 (by simp)
  have h5 : c5 < 256 := hb c5 (by simp)
  have h6 : c6 < 256 := hb c6 (by simp)
  have h7 : c7 < 256 := hb c7 (by simp)
  have h8 : c8 < 256 := hb c8 (by simp)
  have h9 : c9 < 256 := hb c9 (by simp)
  have h10 : c10 < 256 := hb c10 (by simp)
  have h11 : c11 < 256 := hb c11 (by simp)
  have hver : ver < 256 := hb ver (by simp)
  have hop1 : op1 < 256 := hb op1 (by simp)
  have hop2 : op2 < 256 := hb op2 (by simp)
  have e1 := init_stm32_run STM32_ACK h s le out (STM32_ACK :: 11 :: blv :: c1 :: c2 :: c3 ::
    c4 :: c5 :: c6 :: c7 :: c8 :: c9 :: c10 :: c11 :: STM32_ACK :: STM32_ACK :: ver :: op1 ::
    op2 :: STM32_ACK :: tail)
  rw [if_pos rfl] at e1
  have e2 := init_get_run 11 blv c1 c2 c3 c4 c5 c6 c7 c8 c9 c10 c11 STM32_ACK [] (by decide) rfl
    hblv h1 h2 h3 h4 h5 h6 h7 h8 h9 h10 h11 (by decide) h stm_zero le (out ++ [STM32_CMD_INIT])
    (STM32_ACK :: ver :: op1 :: op2 :: STM32_ACK :: tail)
  rw [if_pos rfl, List.nil_append] at e2
  have e3 := init_get_version_run ver op1 op2 STM32_ACK hver hop1 hop2 (by decide) h
    { stm_zero with bl_version := blv, cmd := ⟨c1, c2, c3, c4, c5, c6, c7, c8, c9, c10, c11⟩ } le
    (out ++ [STM32_CMD_INIT] ++ [STM32_CMD_GET, u8 (0xff - (STM32_CMD_GET : Int))]) tail
  rw [if_pos rfl] at e3
  rw [e1, e2, e3, get_frame, u8_complement c2 h2]
  simp [stm_zero, STM32_CMD_INIT]
/-! ## Claims -/

/-- C1: for every opcode `c` in `0..255`, whatever the device does, the bytes
`send_command c` writes are exactly `c` followed by `255 - c`, and `255 - c`
is the bitwise complement `c XOR 0xFF`. -/
theorem send_command_frame (c : Nat) (hc : c < 256) (w : World) :
    (send_command c w).world.out = w.out ++ [c, 255 - c] ∧ 255 - c = c ^^^ 0xFF := by
  refine ⟨?_, complement_eq_xor c hc⟩
  obtain ⟨h, s, le, out, inp⟩ := w
  cases inp with
  | nil => simp [send_command_silent, Outcome.world, u8_complement c hc]
  | cons r rest =>
    by_cases hq : char_of_byte h.char_signed r = (STM32_ACK : Int) <;>
      simp [send_command, Outcome.world, u8_complement c hc, hq]

theorem send_command_frame_witness :
    (send_command 0x11 (start ⟨true, true⟩ [0x1F])).world.out = [] ++ [0x11, 255 - 0x11] ∧
      255 - 0x11 = 0x11 ^^^ 0xFF :=
  send_command_frame 0x11 (by decide) (start ⟨true, true⟩ [0x1F])

/-- C2: for every opcode `c` and every reply byte `r`, `send_command c`
consumes exactly the one byte `r` and returns 1 when `r` is the ACK sentinel
`0x79` and 0 for every other `r`. -/
theorem send_command_reply (c r : Nat) (hr : r < 256) (w : World) (rest : List Nat)
    (hw : w.inp = r :: rest) :
    send_command c w =
      Outcome.ret (if r = 0x79 then 1 else 0)
        { w with out := w.out ++ [c, u8 (0xff - (c : Int))], inp := rest } := by
  obtain ⟨h, s, le, out, inp⟩ := w
  subst hw
  exact send_command_run c r hr h s le out rest

theorem send_command_reply_witness :
    send_command 0x11 (start ⟨true, true⟩ [0x1F, 0x79]) =
      Outcome.ret (if 0x1F = 0x79 then 1 else 0)
        { start ⟨true, true⟩ [0x1F, 0x79] with
          out := (start ⟨true, true⟩ [0x1F, 0x79]).out ++ [0x11, u8 (0xff - ((0x11 : Nat) : Int))],
          inp := [0x79] } :=
  send_command_reply 0x11 0x1F (by decide) (start ⟨true, true⟩ [0x1F, 0x79]) [0x79] rfl

/-- C3: for every word-aligned 32-bit address `a` and either host byte order,
with `le` as the probe of `main` sets it, once the command is acknowledged the
four bytes `read_memory` and `write_memory` write after the command frame are
`a >> 24, (a >> 16) & 0xFF, (a >> 8) & 0xFF, a & 0xFF`. -/
theorem address_bytes_big_endian (a : Nat) (ha : a < 4294967296) (h4 : a % 4 = 0)
    (w : World) (hle : w.le = detect_le w.host) (rest : List Nat)
    (hw : w.inp = STM32_ACK :: rest) (data : List Nat) (len fuel : Nat) :
    (∃ tail, (read_memory a data len w).world.out =
      w.out ++ [w.stm.cmd.rm, u8 (0xff - (w.stm.cmd.rm : Int))] ++
        [a >>> 24, (a >>> 16) &&& 0xFF, (a >>> 8) &&& 0xFF, a &&& 0xFF] ++ tail) ∧
    (∃ tail, (write_memory fuel a data len w).world.out =
      w.out ++ [w.stm.cmd.wm, u8 (0xff - (w.stm.cmd.wm : Int))] ++
        [a >>> 24, (a >>> 16) &&& 0xFF, (a >>> 8) &&& 0xFF, a &&& 0xFF] ++ tail) := by
  obtain ⟨h, s, le, out, inp⟩ := w
  simp only at hle hw
  subst hw
  rw [detect_le_eq] at hle
  subst hle
  rw [be_bytes_eq a, ← mem_bytes_swap h.little_endian a ha]
  constructor
  · obtain ⟨tail, ht⟩ := read_memory_sent_address a len data h4 h s h.little_endian out rest
    exact ⟨address_cs (swap_u32 h.little_endian a) :: tail, by rw [ht]; simp⟩
  · obtain ⟨tail, ht⟩ := write_memory_sent_address fuel a len data h4 h s h.little_endian out rest
    exact ⟨address_cs (swap_u32 h.little_endian a) :: tail, by rw [ht]; simp⟩

theorem address_bytes_big_endian_witness :
    (∃ tail, (read_memory 0x08000000 [0, 0] 2 (start ⟨true, true⟩ [0x79])).world.out =
      (start ⟨true, true⟩ [0x79]).out ++
        [(start ⟨true, true⟩ [0x79]).stm.cmd.rm,
          u8 (0xff - ((start ⟨true, true⟩ [0x79]).stm.cmd.rm : Int))] ++
        [0x08000000 >>> 24, (0x08000000 >>> 16) &&& 0xFF, (0x08000000 >>> 8) &&& 0xFF,
          0x08000000 &&& 0xFF] ++ tail) ∧
    (∃ tail, (write_memory 3 0x08000000 [0, 0] 2 (start ⟨true, true⟩ [0x79])).world.out =
      (start ⟨true, true⟩ [0x79]).out ++
        [(start ⟨true, true⟩ [0x79]).stm.cmd.wm,
          u8 (0xff - ((start ⟨true, true⟩ [0x79]).stm.cmd.wm : Int))] ++
        [0x08000000 >>> 24, (0x08000000 >>> 16) &&& 0xFF, (0x08000000 >>> 8) &&& 0xFF,
          0x08000000 &&& 0xFF] ++ tail) :=
  address_bytes_big_endian 0x08000000 (by decide) (by decide) (start ⟨true, true⟩ [0x79]) rfl []
    rfl [0, 0] 2 3

/-- C4: for every 32-bit address `a` and either value of `le`, the checksum
computed on the swapped address equals the XOR of the four bytes of `a`
(`(a >> 24) ^ (a >> 16) ^ (a >> 8) ^ a` truncated to 8 bits) and the checksum
of the unswapped `a`; when `a` is word-aligned and the command is
acknowledged, this is the seventh byte `read_memory` and `write_memory` write,
right after the two command bytes and the four address bytes. -/
theorem address_checksum_bytewise (a : Nat) (w : World) (rest : List Nat)
    (hw : w.inp = STM32_ACK :: rest) (data : List Nat) (len fuel : Nat) :
    (∀ le, address_cs (swap_u32 le a) = ((a >>> 24) ^^^ (a >>> 16) ^^^ (a >>> 8) ^^^ a) % 256) ∧
    (∀ le, address_cs (swap_u32 le a) = address_cs a) ∧
    (a % 4 = 0 →
      (∃ frame tail, frame.length = 6 ∧ (read_memory a data len w).world.out =
        w.out ++ frame ++ [((a >>> 24) ^^^ (a >>> 16) ^^^ (a >>> 8) ^^^ a) % 256] ++ tail) ∧
      (∃ frame tail, frame.length = 6 ∧ (write_memory fuel a data len w).world.out =
        w.out ++ frame ++ [((a >>> 24) ^^^ (a >>> 16) ^^^ (a >>> 8) ^^^ a) % 256] ++ tail)) := by
  refine ⟨fun le => ?_, fun le => address_cs_swap le a, fun h4 => ⟨?_, ?_⟩⟩
  · rw [xor_bytes_eq, address_cs_swap]
  · obtain ⟨h, s, le, out, inp⟩ := w
    simp only at hw
    subst hw
    obtain ⟨tail, ht⟩ := read_memory_sent_address a len data h4 h s le out rest
    refine ⟨[s.cmd.rm, u8 (0xff - (s.cmd.rm : Int))] ++
      mem_bytes h.little_endian (swap_u32 le a), tail, ?_, ?_⟩
    · cases hl : h.little_endian <;> simp [mem_bytes]
    · rw [ht, xor_bytes_eq, address_cs_swap]
      simp
  · obtain ⟨h, s, le, out, inp⟩ := w
    simp only at hw
    subst hw
    obtain ⟨tail, ht⟩ := write_memory_sent_address fuel a len data h4 h s le out rest
    refine ⟨[s.cmd.wm, u8 (0xff - (s.cmd.wm : Int))] ++
      mem_bytes h.little_endian (swap_u32 le a), tail, ?_, ?_⟩
    · cases hl : h.little_endian <;> simp [mem_bytes]
    · rw [ht, xor_bytes_eq, address_cs_swap]
      simp

theorem address_checksum_bytewise_witness :
    (∃ frame tail, frame.length = 6 ∧
      (read_memory 0x08001234 [0] 1 (start ⟨false, true⟩ [0x79, 0x79])).world.out =
        (start ⟨false, true⟩ [0x79, 0x79]).out ++ frame ++
          [((0x08001234 >>> 24) ^^^ (0x08001234 >>> 16) ^^^ (0x08001234 >>> 8) ^^^ 0x08001234)
            % 256] ++ tail) :=
  ((address_checksum_bytewise 0x08001234 (start ⟨false, true⟩ [0x79, 0x79]) [0x79] rfl [0] 1
    2).2.2 (by decide)).1


theorem read_memory_frame_bytes (a len : Nat) (ha : a < 4294967296) (hl1 : 1 ≤ len)
    (hl2 : len ≤ 255) (l : Bool) (rm : Nat) (hrm : rm < 256) :
    [rm, u8 (0xff - (rm : Int))] ++ mem_bytes l (swap_u32 l a) ++ [address_cs (swap_u32 l a)] ++
        [u8 ((len : Int) - 1), u8 (0xFF - (u8 ((len : Int) - 1) : Int))] =
      [rm, 255 - rm, a >>> 24, (a >>> 16) &&& 0xFF, (a >>> 8) &&& 0xFF, a &&& 0xFF,
        (a >>> 24) ^^^ ((a >>> 16) &&& 0xFF) ^^^ ((a >>> 8) &&& 0xFF) ^^^ (a &&& 0xFF),
        len - 1, 255 - (len - 1)] := by
  have e1 : u8 ((len : Int) - 1) = len - 1 := by unfold u8; omega
  have e2 : u8 (0xFF - ((len - 1 : Nat) : Int)) = 255 - (len - 1) := by unfold u8; omega
  have e3 : a / 16777216 % 256 = a / 16777216 := by omega
  rw [mem_bytes_swap l a ha, address_cs_swap, address_cs_bytes, e1, e2, u8_complement rm hrm, e3]
  simp only [mask0, Nat.shiftRight_eq_div_pow]
  rfl

/-- C5: for every word-aligned address `a`, every `len` in `1..255` and a
device that acknowledges the command, the address and the length and then
delivers `len` data bytes, `read_memory` returns 1 and the bytes it wrote are
exactly `rm, 255 - rm, a3, a2, a1, a0, a3^a2^a1^a0, len - 1, 255 - (len - 1)`
with `a3..a0` the big-endian bytes of `a`. -/
theorem read_memory_frame (a len : Nat) (ha : a < 4294967296) (h4 : a % 4 = 0) (hl1 : 1 ≤ len)
    (hl2 : len ≤ 255) (w : World) (hle : w.le = detect_le w.host) (hrm : w.stm.cmd.rm < 256)
    (ds rest buf : List Nat) (hds : ds.length = len)
    (hw : w.inp = [STM32_ACK, STM32_ACK, STM32_ACK] ++ ds ++ rest) :
    ((read_memory a buf len w).value).map Prod.fst = some 1 ∧
    (read_memory a buf len w).world.out = w.out ++
      [w.stm.cmd.rm, 255 - w.stm.cmd.rm,
        a >>> 24, (a >>> 16) &&& 0xFF, (a >>> 8) &&& 0xFF, a &&& 0xFF,
        (a >>> 24) ^^^ ((a >>> 16) &&& 0xFF) ^^^ ((a >>> 8) &&& 0xFF) ^^^ (a &&& 0xFF),
        len - 1, 255 - (len - 1)] := by
  obtain ⟨h, s, le, out, inp⟩ := w
  simp only at hle hw hrm
  rw [detect_le_eq] at hle
  subst hw hle hds
  obtain ⟨data1, h1⟩ := read_data_returns ds 0 buf h s h.little_endian
    (out ++ [s.cmd.rm, u8 (0xff - (s.cmd.rm : Int))] ++
      mem_bytes h.little_endian (swap_u32 h.little_endian a) ++
      [address_cs (swap_u32 h.little_endian a)] ++
      [u8 ((ds.length : Int) - 1), u8 (0xFF - (u8 ((ds.length : Int) - 1) : Int))]) rest
  have hrun := read_memory_run_acked a ds.length buf (ds ++ rest) h4 h s h.little_endian out
  rw [bind_run _ _ _ _ _ h1] at hrun
  have hrun2 : read_memory a buf ds.length
      ⟨h, s, h.little_endian, out, [STM32_ACK, STM32_ACK, STM32_ACK] ++ ds ++ rest⟩ = _ := hrun
  rw [hrun2]
  refine ⟨rfl, ?_⟩
  simp only [run_pure, Outcome.world, List.append_assoc]
  rw [← read_memory_frame_bytes a ds.length ha hl1 hl2 h.little_endian s.cmd.rm hrm]
  simp

theorem read_memory_frame_witness :
    ((read_memory 0x08000000 (List.replicate 16 0) 16
        { start ⟨true, true⟩ ([0x79, 0x79, 0x79] ++ List.range 16 ++ []) with
          stm := { stm_zero with cmd := { stm_zero.cmd with rm := 0x11 } } }).value).map
      Prod.fst = some 1 ∧
    (read_memory 0x08000000 (List.replicate 16 0) 16
        { start ⟨true, true⟩ ([0x79, 0x79, 0x79] ++ List.range 16 ++ []) with
          stm := { stm_zero with cmd := { stm_zero.cmd with rm := 0x11 } } }).world.out =
      [] ++ [0x11, 0xEE, 0x08, 0x00, 0x00, 0x00, 0x08, 0x0F, 0xF0] :=
  read_memory_frame 0x08000000 16 (by decide) (by decide) (by decide) (by decide)
    { start ⟨true, true⟩ ([0x79, 0x79, 0x79] ++ List.range 16 ++ []) with
      stm := { stm_zero with cmd := { stm_zero.cmd with rm := 0x11 } } }
    rfl (by decide) (List.range 16) [] (List.replicate 16 0) rfl rfl

/-- C6: for every word-aligned address, every `len` in `1..255` and every
device script that acknowledges the three frames and then supplies
`d_0..d_{len-1}`, `read_memory` returns 1, the first `len` cells of the
caller's buffer hold exactly `d_0..d_{len-1}` in order and unchanged (the rest
of the buffer is untouched), and what the device sends after those `len`
bytes is still unread. -/
theorem read_memory_data (a len : Nat) (h4 : a % 4 = 0) (hl1 : 1 ≤ len) (hl2 : len ≤ 255)
    (w : World) (ds rest buf : List Nat) (hds : ds.length = len) (hb : ∀ d ∈ ds, d < 256)
    (hbuf : len ≤ buf.length)
    (hw : w.inp = [STM32_ACK, STM32_ACK, STM32_ACK] ++ ds ++ rest) :
    (read_memory a buf len w).value = some (1, ds ++ buf.drop len) ∧
    (read_memory a buf len w).world.inp = rest := by
  obtain ⟨h, s, le, out, inp⟩ := w
  simp only at hw
  subst hw hds
  have h1 := read_data_run ds 0 buf h s le
    (out ++ [s.cmd.rm, u8 (0xff - (s.cmd.rm : Int))] ++
      mem_bytes h.little_endian (swap_u32 le a) ++
      [address_cs (swap_u32 le a)] ++
      [u8 ((ds.length : Int) - 1), u8 (0xFF - (u8 ((ds.length : Int) - 1) : Int))]) rest
    (by omega) hb
  have hrun := read_memory_run_acked a ds.length buf (ds ++ rest) h4 h s le out
  rw [bind_run _ _ _ _ _ h1] at hrun
  have hrun2 : read_memory a buf ds.length
      ⟨h, s, le, out, [STM32_ACK, STM32_ACK, STM32_ACK] ++ ds ++ rest⟩ = _ := hrun
  rw [hrun2]
  simp [Outcome.value, Outcome.world]

theorem read_memory_data_witness :
    (read_memory 0x08000000 [0, 0, 0, 0, 7] 4
      (start ⟨true, true⟩ ([0x79, 0x79, 0x79] ++ [0xDE, 0xAD, 0xBE, 0xEF] ++ [0x55]))).value =
        some (1, [0xDE, 0xAD, 0xBE, 0xEF] ++ [0, 0, 0, 0, 7].drop 4) ∧
    (read_memory 0x08000000 [0, 0, 0, 0, 7] 4
      (start ⟨true, true⟩ ([0x79, 0x79, 0x79] ++ [0xDE, 0xAD, 0xBE, 0xEF] ++ [0x55]))).world.inp =
        [0x55] :=
  read_memory_data 0x08000000 4 (by decide) (by decide) (by decide)
    (start ⟨true, true⟩ ([0x79, 0x79, 0x79] ++ [0xDE, 0xAD, 0xBE, 0xEF] ++ [0x55]))
    [0xDE, 0xAD, 0xBE, 0xEF] [0x55] [0, 0, 0, 0, 7] rfl (by decide) (by decide) rfl

/-- C7: for every device script `ACK, ACK, [11, bl_version, o1..o11], ACK, ACK,
[version, option1, option2], ACK, ACK, [1, id_hi, id_lo], ACK`, `init_stm32`
returns 1, stores `bl_version`, the eleven opcodes in the fields `get, gvr,
gid, rm, go, wm, er, wp, uw, rp, ur` in that order and `version`, `option1`,
`option2`, writes exactly `0x7F, 0x00, 0xFF, o2, 255 - o2, o3, 255 - o3`, and
reads nothing past the script. -/
theorem init_stm32_handshake (blv c1 c2 c3 c4 c5 c6 c7 c8 c9 c10 c11 ver op1 op2 idh idl : Nat)
    (hb : ∀ b ∈ [blv, c1, c2, c3, c4, c5, c6, c7, c8, c9, c10, c11, ver, op1, op2], b < 256)
    (w : World) (rest : List Nat)
    (hw : w.inp = [STM32_ACK, STM32_ACK, 11, blv, c1, c2, c3, c4, c5, c6, c7, c8, c9, c10, c11,
      STM32_ACK, STM32_ACK, ver, op1, op2, STM32_ACK, STM32_ACK, 1, idh, idl, STM32_ACK] ++ rest) :
    (init_stm32 w).value = some 1 ∧
    (init_stm32 w).world.stm.bl_version = blv ∧
    (init_stm32 w).world.stm.cmd = ⟨c1, c2, c3, c4, c5, c6, c7, c8, c9, c10, c11⟩ ∧
    (init_stm32 w).world.stm.version = ver ∧
    (init_stm32 w).world.stm.option1 = op1 ∧
    (init_stm32 w).world.stm.option2 = op2 ∧
    (init_stm32 w).world.out = w.out ++ [0x7F, 0x00, 0xFF, c2, 255 - c2, c3, 255 - c3] ∧
    (init_stm32 w).world.inp = rest := by
  obtain ⟨h, s, le, out, inp⟩ := w
  simp only at hw
  subst hw
  have h3 : c3 < 256 := hb c3 (by simp)
  have e1 := init_stm32_to_get_id blv c1 c2 c3 c4 c5 c6 c7 c8 c9 c10 c11 ver op1 op2 hb h s le
    out (STM32_ACK :: 1 :: idh :: idl :: STM32_ACK :: rest)
  have e2 := init_get_id_accept idh idl STM32_ACK (by decide) h
    ⟨blv, ver, op1, op2, 0, ⟨c1, c2, c3, c4, c5, c6, c7, c8, c9, c10, c11⟩⟩ le
    (out ++ [0x7F, 0x00, 0xFF, c2, 255 - c2]) rest
  rw [if_pos rfl] at e2
  have e3 : init_stm32 ⟨h, s, le, out, [STM32_ACK, STM32_ACK, 11, blv, c1, c2, c3, c4, c5, c6,
      c7, c8, c9, c10, c11, STM32_ACK, STM32_ACK, ver, op1, op2, STM32_ACK, STM32_ACK, 1, idh,
      idl, STM32_ACK] ++ rest⟩ = _ := e1.trans e2
  rw [e3]
  simp [Outcome.value, Outcome.world, u8_complement c3 h3]

theorem init_stm32_handshake_witness :
    (init_stm32 (start ⟨true, true⟩ ([0x79, 0x79, 11, 0x22, 0x00, 0x01, 0x02, 0x11, 0x21, 0x31,
      0x43, 0x63, 0x73, 0x82, 0x92, 0x79, 0x79, 0x20, 0x00, 0x00, 0x79, 0x79, 1, 0xAB, 0xCD,
      0x79] ++ []))).value = some 1 ∧
    (init_stm32 (start ⟨true, true⟩ ([0x79, 0x79, 11, 0x22, 0x00, 0x01, 0x02, 0x11, 0x21, 0x31,
      0x43, 0x63, 0x73, 0x82, 0x92, 0x79, 0x79, 0x20, 0x00, 0x00, 0x79, 0x79, 1, 0xAB, 0xCD,
      0x79] ++ []))).world.stm.bl_version = 0x22 ∧
    (init_stm32 (start ⟨true, true⟩ ([0x79, 0x79, 11, 0x22, 0x00, 0x01, 0x02, 0x11, 0x21, 0x31,
      0x43, 0x63, 0x73, 0x82, 0x92, 0x79, 0x79, 0x20, 0x00, 0x00, 0x79, 0x79, 1, 0xAB, 0xCD,
      0x79] ++ []))).world.stm.cmd =
        ⟨0x00, 0x01, 0x02, 0x11, 0x21, 0x31, 0x43, 0x63, 0x73, 0x82, 0x92⟩ ∧
    (init_stm32 (start ⟨true, true⟩ ([0x79, 0x79, 11, 0x22, 0x00, 0x01, 0x02, 0x11, 0x21, 0x31,
      0x43, 0x63, 0x73, 0x82, 0x92, 0x79, 0x79, 0x20, 0x00, 0x00, 0x79, 0x79, 1, 0xAB, 0xCD,
      0x79] ++ []))).world.stm.version = 0x20 ∧
    (init_stm32 (start ⟨true, true⟩ ([0x79, 0x79, 11, 0x22, 0x00, 0x01, 0x02, 0x11, 0x21, 0x31,
      0x43, 0x63, 0x73, 0x82, 0x92, 0x79, 0x79, 0x20, 0x00, 0x00, 0x79, 0x79, 1, 0xAB, 0xCD,
      0x79] ++ []))).world.stm.option1 = 0x00 ∧
    (init_stm32 (start ⟨true, true⟩ ([0x79, 0x79, 11, 0x22, 0x00, 0x01, 0x02, 0x11, 0x21, 0x31,
      0x43, 0x63, 0x73, 0x82, 0x92, 0x79, 0x79, 0x20, 0x00, 0x00, 0x79, 0x79, 1, 0xAB, 0xCD,
      0x79] ++ []))).world.stm.option2 = 0x00 ∧
    (init_stm32 (start ⟨true, true⟩ ([0x79, 0x79, 11, 0x22, 0x00, 0x01, 0x02, 0x11, 0x21, 0x31,
      0x43, 0x63, 0x73, 0x82, 0x92, 0x79, 0x79, 0x20, 0x00, 0x00, 0x79, 0x79, 1, 0xAB, 0xCD,
      0x79] ++ []))).world.out = [] ++ [0x7F, 0x00, 0xFF, 0x01, 255 - 0x01, 0x02, 255 - 0x02] ∧
    (init_stm32 (start ⟨true, true⟩ ([0x79, 0x79, 11, 0x22, 0x00, 0x01, 0x02, 0x11, 0x21, 0x31,
      0x43, 0x63, 0x73, 0x82, 0x92, 0x79, 0x79, 0x20, 0x00, 0x00, 0x79, 0x79, 1, 0xAB, 0xCD,
      0x79] ++ []))).world.inp = [] :=
  init_stm32_handshake 0x22 0x00 0x01 0x02 0x11 0x21 0x31 0x43 0x63 0x73 0x82 0x92 0x20 0x00 0x00
    0xAB 0xCD (by decide) _ [] rfl


/-- C8 (failing input): a GET response with length byte `N = 10`, a version
byte, ten opcodes and the ACK. `init_stm32` stores the ACK as the opcode `ur`,
its counter wraps to 255 and it waits for 255 more bytes: the device is silent
and the call never returns. When 255 further bytes do arrive, the byte checked
as the trailing ACK is the 268th after the length byte, not the 12th. -/
theorem init_stm32_short_get_response (h : Host) :
    init_stm32 (start h [0x79, 0x79, 10, 0x22, 0x00, 0x01, 0x02, 0x11, 0x21, 0x31, 0x43, 0x63,
        0x73, 0x82, 0x79]) =
      Outcome.starved ⟨h, ⟨0x22, 0, 0, 0, 0,
        ⟨0x00, 0x01, 0x02, 0x11, 0x21, 0x31, 0x43, 0x63, 0x73, 0x82, 0x79⟩⟩, detect_le h,
        [0x7F, 0x00, 0xFF], []⟩ ∧
    init_stm32 (start h ([0x79, 0x79, 10, 0x22, 0x00, 0x01, 0x02, 0x11, 0x21, 0x31, 0x43, 0x63,
        0x73, 0x82, 0x79] ++ List.replicate 255 0x00 ++ [0x1F, 0x55])) =
      Outcome.ret 0 ⟨h, ⟨0x22, 0, 0, 0, 0,
        ⟨0x00, 0x01, 0x02, 0x11, 0x21, 0x31, 0x43, 0x63, 0x73, 0x82, 0x79⟩⟩, detect_le h,
        [0x7F, 0x00, 0xFF], [0x55]⟩ := by
  constructor
  · have e1 := init_stm32_run STM32_ACK h stm_zero (detect_le h) [] [STM32_ACK, 10, 0x22,
      0x00, 0x01, 0x02, 0x11, 0x21, 0x31, 0x43, 0x63, 0x73, 0x82, 0x79]
    rw [if_pos rfl] at e1
    have e2 := init_get_starved 10 0x22 0x00 0x01 0x02 0x11 0x21 0x31 0x43 0x63 0x73 0x82 0x79
      [] (by decide) (by decide) (by decide) (by decide) (by decide)
      (by decide) (by decide) (by decide) (by decide) (by decide) (by decide) (by decide)
      (by decide) (by decide) h stm_zero (detect_le h) ([] ++ [STM32_CMD_INIT])
    rw [get_frame] at e2
    exact e1.trans e2
  · have e1 := init_stm32_run STM32_ACK h stm_zero (detect_le h) [] (STM32_ACK :: 10 :: 0x22 ::
      0x00 :: 0x01 :: 0x02 :: 0x11 :: 0x21 :: 0x31 :: 0x43 :: 0x63 :: 0x73 :: 0x82 :: 0x79 ::
      (List.replicate 255 0x00 ++ 0x1F :: [0x55]))
    rw [if_pos rfl] at e1
    have e2 := init_get_run 10 0x22 0x00 0x01 0x02 0x11 0x21 0x31 0x43 0x63 0x73 0x82 0x79 0x1F
      (List.replicate 255 0x00) (by decide) (List.length_replicate _ _) (by decide) (by decide)
      (by decide) (by decide) (by decide) (by decide) (by decide) (by decide) (by decide)
      (by decide) (by decide) (by decide) (by decide) h stm_zero (detect_le h)
      ([] ++ [STM32_CMD_INIT]) [0x55]
    rw [if_neg (by decide), get_frame] at e2
    simp only [start, List.cons_append, List.nil_append, List.append_assoc]
    exact e1.trans e2

theorem pid_signed_value :
    (int_bits (char_of_byte true 0xAB * 256) ||| int_bits (char_of_byte true 0xCD)) % 65536 =
      0xFFCD := by
  decide

theorem pid_unsigned_value :
    (int_bits (char_of_byte false 0xAB * 256) ||| int_bits (char_of_byte false 0xCD)) % 65536 =
      0xABCD := by
  decide

/-- C9 (failing input): on a host whose plain `char` is signed, the accepted
GET ID reply `[1, 0xAB, 0xCD, ACK]` makes `init_stm32` return 1 with
`pid = 0xFFCD`: `read_byte()` returns the low byte `0xCD` as a negative `char`,
whose sign extension fills the high byte in the OR. On a host with unsigned
`char` the same script gives `pid = 0xABCD`. -/
theorem init_stm32_pid_sign_extended (l : Bool) :
    init_stm32 (start ⟨l, true⟩ [0x79, 0x79, 11, 0x22, 0x00, 0x01, 0x02, 0x11, 0x21, 0x31,
        0x43, 0x63, 0x73, 0x82, 0x92, 0x79, 0x79, 0x20, 0x00, 0x00, 0x79, 0x79, 1, 0xAB, 0xCD,
        0x79]) =
      Outcome.ret 1 ⟨⟨l, true⟩, ⟨0x22, 0x20, 0x00, 0x00, 0xFFCD,
        ⟨0x00, 0x01, 0x02, 0x11, 0x21, 0x31, 0x43, 0x63, 0x73, 0x82, 0x92⟩⟩,
        detect_le ⟨l, true⟩, [0x7F, 0x00, 0xFF, 0x01, 0xFE, 0x02, 0xFD], []⟩ ∧
    init_stm32 (start ⟨l, false⟩ [0x79, 0x79, 11, 0x22, 0x00, 0x01, 0x02, 0x11, 0x21, 0x31,
        0x43, 0x63, 0x73, 0x82, 0x92, 0x79, 0x79, 0x20, 0x00, 0x00, 0x79, 0x79, 1, 0xAB, 0xCD,
        0x79]) =
      Outcome.ret 1 ⟨⟨l, false⟩, ⟨0x22, 0x20, 0x00, 0x00, 0xABCD,
        ⟨0x00, 0x01, 0x02, 0x11, 0x21, 0x31, 0x43, 0x63, 0x73, 0x82, 0x92⟩⟩,
        detect_le ⟨l, false⟩, [0x7F, 0x00, 0xFF, 0x01, 0xFE, 0x02, 0xFD], []⟩ := by
  have hb : ∀ b ∈ [0x22, 0x00, 0x01, 0x02, 0x11, 0x21, 0x31, 0x43, 0x63, 0x73, 0x82, 0x92,
      0x20, 0x00, 0x00], b < 256 := by decide
  have hgid : u8 (0xff - ((0x02 : Nat) : Int)) = 0xFD := by decide
  constructor
  · have e1 := init_stm32_to_get_id 0x22 0x00 0x01 0x02 0x11 0x21 0x31 0x43 0x63 0x73 0x82 0x92
      0x20 0x00 0x00 hb ⟨l, true⟩ stm_zero (detect_le ⟨l, true⟩) []
      [STM32_ACK, 1, 0xAB, 0xCD, STM32_ACK]
    have e2 := init_get_id_accept 0xAB 0xCD STM32_ACK (by decide) ⟨l, true⟩
      ⟨0x22, 0x20, 0x00, 0x00, 0, ⟨0x00, 0x01, 0x02, 0x11, 0x21, 0x31, 0x43, 0x63, 0x73, 0x82,
        0x92⟩⟩ (detect_le ⟨l, true⟩) ([] ++ [0x7F, 0x00, 0xFF, 0x01, 255 - 0x01]) []
    rw [if_pos rfl] at e2
    simp only [pid_signed_value, hgid] at e2
    exact e1.trans e2
  · have e1 := init_stm32_to_get_id 0x22 0x00 0x01 0x02 0x11 0x21 0x31 0x43 0x63 0x73 0x82 0x92
      0x20 0x00 0x00 hb ⟨l, false⟩ stm_zero (detect_le ⟨l, false⟩) []
      [STM32_ACK, 1, 0xAB, 0xCD, STM32_ACK]
    have e2 := init_get_id_accept 0xAB 0xCD STM32_ACK (by decide) ⟨l, false⟩
      ⟨0x22, 0x20, 0x00, 0x00, 0, ⟨0x00, 0x01, 0x02, 0x11, 0x21, 0x31, 0x43, 0x63, 0x73, 0x82,
        0x92⟩⟩ (detect_le ⟨l, false⟩) ([] ++ [0x7F, 0x00, 0xFF, 0x01, 255 - 0x01]) []
    rw [if_pos rfl] at e2
    simp only [pid_unsigned_value, hgid] at e2
    exact e1.trans e2

/-- C10 (as stated, refuted): a GET ID reply whose length-prefix byte is 2,
`[2, 0xAB, 0xCD, ACK]`, is rejected with the ID bytes left unread, while the
reply `[1, 0xAB, 0xCD, ACK]` is accepted. -/
theorem get_id_length_two_rejected :
    init_stm32 (start ⟨true, false⟩ [0x79, 0x79, 11, 0x22, 0x00, 0x01, 0x02, 0x11, 0x21, 0x31,
        0x43, 0x63, 0x73, 0x82, 0x92, 0x79, 0x79, 0x20, 0x00, 0x00, 0x79, 0x79, 2, 0xAB, 0xCD,
        0x79]) =
      Outcome.ret 0 ⟨⟨true, false⟩, ⟨0x22, 0x20, 0x00, 0x00, 0,
        ⟨0x00, 0x01, 0x02, 0x11, 0x21, 0x31, 0x43, 0x63, 0x73, 0x82, 0x92⟩⟩,
        detect_le ⟨true, false⟩, [0x7F, 0x00, 0xFF, 0x01, 0xFE, 0x02, 0xFD],
        [0xAB, 0xCD, 0x79]⟩ ∧
    (init_stm32 (start ⟨true, false⟩ [0x79, 0x79, 11, 0x22, 0x00, 0x01, 0x02, 0x11, 0x21, 0x31,
        0x43, 0x63, 0x73, 0x82, 0x92, 0x79, 0x79, 0x20, 0x00, 0x00, 0x79, 0x79, 1, 0xAB, 0xCD,
        0x79])).value = some 1 := by
  have hb : ∀ b ∈ [0x22, 0x00, 0x01, 0x02, 0x11, 0x21, 0x31, 0x43, 0x63, 0x73, 0x82, 0x92,
      0x20, 0x00, 0x00], b < 256 := by decide
  have hgid : u8 (0xff - ((0x02 : Nat) : Int)) = 0xFD := by decide
  constructor
  · have e1 := init_stm32_to_get_id 0x22 0x00 0x01 0x02 0x11 0x21 0x31 0x43 0x63 0x73 0x82 0x92
      0x20 0x00 0x00 hb ⟨true, false⟩ stm_zero (detect_le ⟨true, false⟩) []
      [STM32_ACK, 2, 0xAB, 0xCD, 0x79]
    have e2 := init_get_id_reject 2 (by decide) (by decide) ⟨true, false⟩
      ⟨0x22, 0x20, 0x00, 0x00, 0, ⟨0x00, 0x01, 0x02, 0x11, 0x21, 0x31, 0x43, 0x63, 0x73, 0x82,
        0x92⟩⟩ (detect_le ⟨true, false⟩) ([] ++ [0x7F, 0x00, 0xFF, 0x01, 255 - 0x01])
      [0xAB, 0xCD, 0x79]
    simp only [hgid] at e2
    exact e1.trans e2
  · have e1 := init_stm32_to_get_id 0x22 0x00 0x01 0x02 0x11 0x21 0x31 0x43 0x63 0x73 0x82 0x92
      0x20 0x00 0x00 hb ⟨true, false⟩ stm_zero (detect_le ⟨true, false⟩) []
      [STM32_ACK, 1, 0xAB, 0xCD, STM32_ACK]
    have e2 := init_get_id_accept 0xAB 0xCD STM32_ACK (by decide) ⟨true, false⟩
      ⟨0x22, 0x20, 0x00, 0x00, 0, ⟨0x00, 0x01, 0x02, 0x11, 0x21, 0x31, 0x43, 0x63, 0x73, 0x82,
        0x92⟩⟩ (detect_le ⟨true, false⟩) ([] ++ [0x7F, 0x00, 0xFF, 0x01, 255 - 0x01]) []
    rw [if_pos rfl] at e2
    have e3 : init_stm32 (start ⟨true, false⟩ [0x79, 0x79, 11, 0x22, 0x00, 0x01, 0x02, 0x11,
        0x21, 0x31, 0x43, 0x63, 0x73, 0x82, 0x92, 0x79, 0x79, 0x20, 0x00, 0x00, 0x79, 0x79, 1,
        0xAB, 0xCD, 0x79]) = _ := e1.trans e2
    rw [e3]
    rfl

/-- C10 (amended): in the GET ID step of `init_stm32` the reply is accepted
exactly when its length-prefix byte equals 1 (the byte counts the ID bytes
minus one: wire format `[1][id_hi][id_lo][ACK]`); for every other length byte
`init_stm32` returns 0 with `pid` unset and the bytes after the length byte
unread. -/
theorem get_id_length_byte (blv c1 c2 c3 c4 c5 c6 c7 c8 c9 c10 c11 ver op1 op2 l : Nat)
    (hb : ∀ b ∈ [blv, c1, c2, c3, c4, c5, c6, c7, c8, c9, c10, c11, ver, op1, op2], b < 256)
    (hl : l < 256) (h : Host) (s : stm32_t) (le : Bool) (out tail : List Nat) :
    (l ≠ 1 →
      init_stm32 ⟨h, s, le, out, [STM32_ACK, STM32_ACK, 11, blv, c1, c2, c3, c4, c5, c6, c7,
          c8, c9, c10, c11, STM32_ACK, STM32_ACK, ver, op1, op2, STM32_ACK, STM32_ACK, l] ++
          tail⟩ =
        Outcome.ret 0 ⟨h, ⟨blv, ver, op1, op2, 0, ⟨c1, c2, c3, c4, c5, c6, c7, c8, c9, c10, c11⟩⟩,
          le, out ++ [0x7F, 0x00, 0xFF, c2, 255 - c2, c3, 255 - c3], tail⟩) ∧
    (l = 1 → ∀ idh idl rest, tail = idh :: idl :: STM32_ACK :: rest →
      (init_stm32 ⟨h, s, le, out, [STM32_ACK, STM32_ACK, 11, blv, c1, c2, c3, c4, c5, c6, c7,
          c8, c9, c10, c11, STM32_ACK, STM32_ACK, ver, op1, op2, STM32_ACK, STM32_ACK, l] ++
          tail⟩).value = some 1 ∧
      (init_stm32 ⟨h, s, le, out, [STM32_ACK, STM32_ACK, 11, blv, c1, c2, c3, c4, c5, c6, c7,
          c8, c9, c10, c11, STM32_ACK, STM32_ACK, ver, op1, op2, STM32_ACK, STM32_ACK, l] ++
          tail⟩).world.inp = rest) := by
  have h3 : c3 < 256 := hb c3 (by simp)
  have e1 := init_stm32_to_get_id blv c1 c2 c3 c4 c5 c6 c7 c8 c9 c10 c11 ver op1 op2 hb h s le
    out (STM32_ACK :: l :: tail)
  have e0 : init_stm32 ⟨h, s, le, out, [STM32_ACK, STM32_ACK, 11, blv, c1, c2, c3, c4, c5, c6,
      c7, c8, c9, c10, c11, STM32_ACK, STM32_ACK, ver, op1, op2, STM32_ACK, STM32_ACK, l] ++
      tail⟩ = _ := e1
  rw [e0]
  constructor
  · intro hne
    rw [init_get_id_reject l hl hne]
    simp [u8_complement c3 h3]
  · intro heq idh idl rest htail
    subst heq htail
    have e2 := init_get_id_accept idh idl STM32_ACK (by decide) h
      ⟨blv, ver, op1, op2, 0, ⟨c1, c2, c3, c4, c5, c6, c7, c8, c9, c10, c11⟩⟩ le
      (out ++ [0x7F, 0x00, 0xFF, c2, 255 - c2]) rest
    rw [if_pos rfl] at e2
    rw [e2]
    exact ⟨rfl, rfl⟩

theorem get_id_length_byte_witness :
    init_stm32 ⟨⟨true, true⟩, stm_zero, true, [], [STM32_ACK, STM32_ACK, 11, 0x22, 0x00, 0x01,
        0x02, 0x11, 0x21, 0x31, 0x43, 0x63, 0x73, 0x82, 0x92, STM32_ACK, STM32_ACK, 0x20, 0, 0,
        STM32_ACK, STM32_ACK, 0] ++ [0x04, 0x10, 0x79]⟩ =
      Outcome.ret 0 ⟨⟨true, true⟩, ⟨0x22, 0x20, 0, 0, 0,
        ⟨0x00, 0x01, 0x02, 0x11, 0x21, 0x31, 0x43, 0x63, 0x73, 0x82, 0x92⟩⟩, true,
        [] ++ [0x7F, 0x00, 0xFF, 0x01, 255 - 0x01, 0x02, 255 - 0x02], [0x04, 0x10, 0x79]⟩ ∧
    (init_stm32 ⟨⟨true, true⟩, stm_zero, true, [], [STM32_ACK, STM32_ACK, 11, 0x22, 0x00, 0x01,
        0x02, 0x11, 0x21, 0x31, 0x43, 0x63, 0x73, 0x82, 0x92, STM32_ACK, STM32_ACK, 0x20, 0, 0,
        STM32_ACK, STM32_ACK, 1] ++ [0x04, 0x10, STM32_ACK, 0x55]⟩).value = some 1 ∧
    (init_stm32 ⟨⟨true, true⟩, stm_zero, true, [], [STM32_ACK, STM32_ACK, 11, 0x22, 0x00, 0x01,
        0x02, 0x11, 0x21, 0x31, 0x43, 0x63, 0x73, 0x82, 0x92, STM32_ACK, STM32_ACK, 0x20, 0, 0,
        STM32_ACK, STM32_ACK, 1] ++ [0x04, 0x10, STM32_ACK, 0x55]⟩).world.inp = [0x55] :=
  ⟨(get_id_length_byte 0x22 0x00 0x01 0x02 0x11 0x21 0x31 0x43 0x63 0x73 0x82 0x92 0x20 0 0 0
      (by decide) (by decide) ⟨true, true⟩ stm_zero true [] [0x04, 0x10, 0x79]).1 (by decide),
    (get_id_length_byte 0x22 0x00 0x01 0x02 0x11 0x21 0x31 0x43 0x63 0x73 0x82 0x92 0x20 0 0 1
      (by decide) (by decide) ⟨true, true⟩ stm_zero true []
      [0x04, 0x10, STM32_ACK, 0x55]).2 rfl 0x04 0x10 [0x55] rfl⟩

/-! ### The write transfer -/

theorem write_data_sent (data : List Nat) (cs : Nat) (hb : ∀ d ∈ data, d < 256) (h : Host)
    (s : stm32_t) (le : Bool) (out inp : List Nat) :
    write_data data.length data cs ⟨h, s, le, out, inp⟩ =
      Outcome.ret (data.foldl (fun x d => x ^^^ d) cs) ⟨h, s, le, out ++ data, inp⟩ := by
  induction data generalizing cs out with
  | nil => simp [write_data]
  | cons d ds ih =>
    have hd : d < 256 := hb d (List.mem_cons_self _ _)
    simp only [List.length_cons, write_data, List.headD_cons, List.tail_cons, send_byte_bind,
      u8_nat d hd, List.foldl_cons]
    rw [ih (cs ^^^ d) (fun x hx => hb x (List.mem_cons_of_mem _ hx))]
    simp

theorem write_memory_run_acked (fuel a : Nat) (data : List Nat) (h4 : a % 4 = 0)
    (hb : ∀ d ∈ data, d < 256) (h : Host) (s : stm32_t) (le : Bool) (out rest : List Nat) :
    write_memory fuel a data data.length ⟨h, s, le, out, STM32_ACK :: STM32_ACK :: rest⟩ =
      Outcome.running ⟨h, s, le,
        out ++ [s.cmd.wm, u8 (0xff - (s.cmd.wm : Int))] ++
          mem_bytes h.little_endian (swap_u32 le a) ++ [address_cs (swap_u32 le a)] ++
          [u8 ((data.length : Int) - 1 + ((data.length % 4 : Nat) : Int))] ++ data ++
          List.replicate fuel 0xFF, rest⟩ := by
  simp only [write_memory, h4, beq_self_eq_true, c_assert_true_bind, get_le_bind,
    get_stm_bind, get_host_bind, send_command_bind_ack, one_ne_zero, if_false, run_ite,
    write_fd_bind, send_byte_bind, read_byte_bind, char_ack, ne_eq, not_true_eq_false,
    u8_nat _ (address_cs_lt _), u8_u8]
  rw [bind_run _ _ _ _ _ (write_data_sent data _ hb _ _ _ _ _)]
  show M.bind _ _ _ = _
  unfold M.bind
  rw [write_padding_run]

/-! ### Commands that are not acknowledged -/

theorem init_get_nack (r : Nat) (hr : r < 256) (hne : r ≠ STM32_ACK) (h : Host) (s : stm32_t)
    (le : Bool) (out rest : List Nat) :
    init_get ⟨h, s, le, out, r :: rest⟩ =
      Outcome.ret 0 ⟨h, s, le, out ++ [0x00, 0xFF], rest⟩ := by
  unfold init_get
  rw [send_command_bind _ r hr, if_neg hne, get_frame]
  simp

theorem init_get_version_nack (r : Nat) (hr : r < 256) (hne : r ≠ STM32_ACK) (h : Host)
    (s : stm32_t) (le : Bool) (out rest : List Nat) :
    init_get_version ⟨h, s, le, out, r :: rest⟩ =
      Outcome.ret 0 ⟨h, s, le, out ++ [s.cmd.gvr, u8 (0xff - (s.cmd.gvr : Int))], rest⟩ := by
  unfold init_get_version
  rw [get_stm_bind, send_command_bind _ r hr, if_neg hne]
  simp

theorem init_get_id_nack (r : Nat) (hr : r < 256) (hne : r ≠ STM32_ACK) (h : Host)
    (s : stm32_t) (le : Bool) (out rest : List Nat) :
    init_get_id ⟨h, s, le, out, r :: rest⟩ =
      Outcome.ret 0 ⟨h, s, le, out ++ [s.cmd.gid, u8 (0xff - (s.cmd.gid : Int))], rest⟩ := by
  unfold init_get_id
  rw [get_stm_bind, send_command_bind _ r hr, if_neg hne]
  simp

theorem init_stm32_to_get_version (n blv c1 c2 c3 c4 c5 c6 c7 c8 c9 c10 c11 : Nat)
    (ex : List Nat)
    (hb : ∀ b ∈ [n, blv, c1, c2, c3, c4, c5, c6, c7, c8, c9, c10, c11], b < 256)
    (hex : ex.length = (n + 245) % 256) (h : Host) (s : stm32_t) (le : Bool)
    (out tail : List Nat) :
    init_stm32 ⟨h, s, le, out, [STM32_ACK, STM32_ACK, n, blv, c1, c2, c3, c4, c5, c6, c7, c8,
        c9, c10, c11] ++ ex ++ STM32_ACK :: tail⟩ =
      init_get_version ⟨h, ⟨blv, 0, 0, 0, 0, ⟨c1, c2, c3, c4, c5, c6, c7, c8, c9, c10, c11⟩⟩, le,
        out ++ [0x7F, 0x00, 0xFF], tail⟩ := by
  have e1 := init_stm32_run STM32_ACK h s le out (STM32_ACK :: n :: blv :: c1 :: c2 :: c3 ::
    c4 :: c5 :: c6 :: c7 :: c8 :: c9 :: c10 :: c11 :: (ex ++ STM32_ACK :: tail))
  rw [if_pos rfl] at e1
  have e2 := init_get_run n blv c1 c2 c3 c4 c5 c6 c7 c8 c9 c10 c11 STM32_ACK ex
    (hb n (by simp)) hex
    (hb blv (by simp)) (hb c1 (by simp)) (hb c2 (by simp)) (hb c3 (by simp))
    (hb c4 (by simp)) (hb c5 (by simp)) (hb c6 (by simp)) (hb c7 (by simp)) (hb c8 (by simp))
    (hb c9 (by simp)) (hb c10 (by simp)) (hb c11 (by simp)) (by decide) h stm_zero le
    (out ++ [STM32_CMD_INIT]) tail
  rw [if_pos rfl, get_frame] at e2
  simp only [List.cons_append, List.nil_append, List.append_assoc]
  rw [e1, e2]
  simp [stm_zero, STM32_CMD_INIT]

theorem init_stm32_get_trailing (n blv c1 c2 c3 c4 c5 c6 c7 c8 c9 c10 c11 r : Nat)
    (ex : List Nat)
    (hb : ∀ b ∈ [n, blv, c1, c2, c3, c4, c5, c6, c7, c8, c9, c10, c11], b < 256)
    (hex : ex.length = (n + 245) % 256) (hr : r < 256) (hne : r ≠ STM32_ACK) (h : Host)
    (s : stm32_t) (le : Bool) (out tail : List Nat) :
    init_stm32 ⟨h, s, le, out, [STM32_ACK, STM32_ACK, n, blv, c1, c2, c3, c4, c5, c6, c7, c8,
        c9, c10, c11] ++ ex ++ r :: tail⟩ =
      Outcome.ret 0 ⟨h, ⟨blv, 0, 0, 0, 0, ⟨c1, c2, c3, c4, c5, c6, c7, c8, c9, c10, c11⟩⟩, le,
        out ++ [0x7F, 0x00, 0xFF], tail⟩ := by
  have e1 := init_stm32_run STM32_ACK h s le out (STM32_ACK :: n :: blv :: c1 :: c2 :: c3 ::
    c4 :: c5 :: c6 :: c7 :: c8 :: c9 :: c10 :: c11 :: (ex ++ r :: tail))
  rw [if_pos rfl] at e1
  have e2 := init_get_run n blv c1 c2 c3 c4 c5 c6 c7 c8 c9 c10 c11 r ex
    (hb n (by simp)) hex
    (hb blv (by simp)) (hb c1 (by simp)) (hb c2 (by simp)) (hb c3 (by simp))
    (hb c4 (by simp)) (hb c5 (by simp)) (hb c6 (by simp)) (hb c7 (by simp)) (hb c8 (by simp))
    (hb c9 (by simp)) (hb c10 (by simp)) (hb c11 (by simp)) hr h stm_zero le
    (out ++ [STM32_CMD_INIT]) tail
  rw [if_neg hne, get_frame] at e2
  simp only [List.cons_append, List.nil_append, List.append_assoc]
  rw [e1, e2]
  simp [stm_zero, STM32_CMD_INIT]

theorem init_stm32_to_get_id_any (n blv c1 c2 c3 c4 c5 c6 c7 c8 c9 c10 c11 ver op1 op2 : Nat)
    (ex : List Nat)
    (hb : ∀ b ∈ [n, blv, c1, c2, c3, c4, c5, c6, c7, c8, c9, c10, c11], b < 256)
    (hex : ex.length = (n + 245) % 256) (hv : ver < 256) (h1 : op1 < 256) (h2 : op2 < 256)
    (h : Host) (s : stm32_t) (le : Bool) (out tail : List Nat) :
    init_stm32 ⟨h, s, le, out, [STM32_ACK, STM32_ACK, n, blv, c1, c2, c3, c4, c5, c6, c7, c8,
        c9, c10, c11] ++ ex ++
        STM32_ACK :: STM32_ACK :: ver :: op1 :: op2 :: STM32_ACK :: tail⟩ =
      init_get_id ⟨h, ⟨blv, ver, op1, op2, 0, ⟨c1, c2, c3, c4, c5, c6, c7, c8, c9, c10, c11⟩⟩, le,
        out ++ [0x7F, 0x00, 0xFF, c2, 255 - c2], tail⟩ := by
  rw [init_stm32_to_get_version n blv c1 c2 c3 c4 c5 c6 c7 c8 c9 c10 c11 ex hb hex,
    init_get_version_run ver op1 op2 STM32_ACK hv h1 h2 (by decide), if_pos rfl,
    u8_complement c2 (hb c2 (by simp))]
  simp

/-! ### The alignment assertion and early exits of the read transfer -/

theorem bind_starved {α β : Type} (m : M α) (f : α → M β) (w w1 : World)
    (hm : m w = Outcome.starved w1) : (m >>= f) w = Outcome.starved w1 := by
  show M.bind m f w = _
  unfold M.bind
  rw [hm]

theorem bind_running {α β : Type} (m : M α) (f : α → M β) (w w1 : World)
    (hm : m w = Outcome.running w1) : (m >>= f) w = Outcome.running w1 := by
  show M.bind m f w = _
  unfold M.bind
  rw [hm]

theorem read_data_ret_or_starved (len p : Nat) (data : List Nat) (w : World) :
    (∃ d w1, read_data len p data w = Outcome.ret d w1) ∨
      (∃ w1, read_data len p data w = Outcome.starved w1) := by
  induction len generalizing p data w with
  | zero => exact Or.inl ⟨data, w, rfl⟩
  | succ n ih =>
    obtain ⟨h, s, le, out, inp⟩ := w
    cases inp with
    | nil => exact Or.inr ⟨⟨h, s, le, out, []⟩, by simp [read_data]⟩
    | cons b rest =>
      simp only [read_data, read_byte_bind]
      exact ih _ _ _

theorem read_memory_unaligned (a len : Nat) (data : List Nat) (h4 : a % 4 ≠ 0) (w : World) :
    read_memory a data len w = Outcome.assert_failed w := by
  have hb : (a % 4 == 0) = false := by simpa using h4
  simp only [read_memory, hb, c_assert_false_bind]

theorem write_memory_unaligned (fuel a len : Nat) (data : List Nat) (h4 : a % 4 ≠ 0)
    (w : World) : write_memory fuel a data len w = Outcome.assert_failed w := by
  have hb : (a % 4 == 0) = false := by simpa using h4
  simp only [write_memory, hb, c_assert_false_bind]

theorem read_memory_nack (a len r : Nat) (data : List Nat) (h4 : a % 4 = 0) (hr : r < 256)
    (hne : r ≠ STM32_ACK) (h : Host) (s : stm32_t) (le : Bool) (out rest : List Nat) :
    read_memory a data len ⟨h, s, le, out, r :: rest⟩ =
        Outcome.ret (0, data)
          ⟨h, s, le, out ++ [s.cmd.rm, u8 (0xff - (s.cmd.rm : Int))], rest⟩ ∧
    read_memory a data len ⟨h, s, le, out, STM32_ACK :: r :: rest⟩ =
        Outcome.ret (0, data)
          ⟨h, s, le, out ++ [s.cmd.rm, u8 (0xff - (s.cmd.rm : Int))] ++
            mem_bytes h.little_endian (swap_u32 le a) ++ [address_cs (swap_u32 le a)], rest⟩ ∧
    read_memory a data len ⟨h, s, le, out, STM32_ACK :: STM32_ACK :: r :: rest⟩ =
        Outcome.ret (0, data)
          ⟨h, s, le, out ++ [s.cmd.rm, u8 (0xff - (s.cmd.rm : Int))] ++
            mem_bytes h.little_endian (swap_u32 le a) ++ [address_cs (swap_u32 le a)] ++
            [u8 ((len : Int) - 1), u8 (0xFF - (u8 ((len : Int) - 1) : Int))], rest⟩ := by
  have hc : ¬ char_of_byte h.char_signed r = (STM32_ACK : Int) :=
    fun hq => hne ((char_of_byte_eq_ack _ r hr).1 hq)
  refine ⟨?_, ?_, ?_⟩
  · simp only [read_memory, h4, beq_self_eq_true, c_assert_true_bind, get_le_bind,
      get_stm_bind]
    rw [send_command_bind _ r hr, if_neg hne]
    simp
  · simp [read_memory, h4, hc, u8_nat _ (address_cs_lt _)]
  · simp [read_memory, h4, hc, u8_nat _ (address_cs_lt _)]

theorem send_command_bind_any {β : Type} (c r : Nat) (f : Nat → M β) (h : Host)
    (s : stm32_t) (le : Bool) (out rest : List Nat) :
    (send_command c >>= f) ⟨h, s, le, out, r :: rest⟩ =
      f (if char_of_byte h.char_signed r = (STM32_ACK : Int) then 1 else 0)
        ⟨h, s, le, out ++ [c, u8 (0xff - (c : Int))], rest⟩ := by
  have hrun : send_command c ⟨h, s, le, out, r :: rest⟩ =
      Outcome.ret (if char_of_byte h.char_signed r = (STM32_ACK : Int) then 1 else 0)
        ⟨h, s, le, out ++ [c, u8 (0xff - (c : Int))], rest⟩ := by
    simp only [send_command, write_fd_bind, read_fd_char_bind, run_ite, run_pure, ne_eq]
    by_cases hq : char_of_byte h.char_signed r = (STM32_ACK : Int) <;> simp [hq]
  exact bind_run _ _ _ _ _ hrun

theorem read_memory_outcome (a len : Nat) (data : List Nat) (h4 : a % 4 = 0) (w : World) :
    (∃ v w1, read_memory a data len w = Outcome.ret v w1) ∨
      (∃ w1, read_memory a data len w = Outcome.starved w1) := by
  obtain ⟨h, s, le, out, inp⟩ := w
  simp only [read_memory, h4, beq_self_eq_true, c_assert_true_bind, get_le_bind, get_stm_bind]
  rcases inp with _ | ⟨r1, rest1⟩
  · exact Or.inr ⟨_, send_command_bind_nil _ _ _ _ _ _⟩
  · rw [send_command_bind_any]
    by_cases h1 : char_of_byte h.char_signed r1 = (STM32_ACK : Int)
    · simp only [h1, if_true, one_ne_zero, if_false, run_ite, get_host_bind, write_fd_bind,
        send_byte_bind]
      rcases rest1 with _ | ⟨r2, rest2⟩
      · exact Or.inr ⟨_, read_byte_bind_nil _ _ _ _ _⟩
      · rw [read_byte_bind]
        by_cases h2 : char_of_byte h.char_signed r2 = (STM32_ACK : Int)
        · simp only [h2, ne_eq, not_true_eq_false, if_false, run_ite, send_byte_bind]
          rcases rest2 with _ | ⟨r3, rest3⟩
          · exact Or.inr ⟨_, read_byte_bind_nil _ _ _ _ _⟩
          · rw [read_byte_bind]
            by_cases h3 : char_of_byte h.char_signed r3 = (STM32_ACK : Int)
            · simp only [h3, ne_eq, not_true_eq_false, if_false, run_ite]
              rcases read_data_ret_or_starved len 0 data
                ⟨h, s, le, out ++ [s.cmd.rm, u8 (0xff - (s.cmd.rm : Int))] ++
                  mem_bytes h.little_endian (swap_u32 le a) ++
                  [u8 (address_cs (swap_u32 le a) : Nat)] ++ [u8 ((u8 ((len : Int) - 1) : Nat))] ++
                  [u8 (0xFF - ((u8 ((len : Int) - 1) : Nat) : Int))], rest3⟩ with
                ⟨d, w1, hd⟩ | ⟨w1, hd⟩
              · exact Or.inl ⟨(1, d), w1, bind_run _ _ _ _ _ hd⟩
              · exact Or.inr ⟨w1, bind_starved _ _ _ _ hd⟩
            · simp only [h3, ne_eq, not_false_eq_true, if_true, run_ite, run_pure]
              exact Or.inl ⟨_, _, rfl⟩
        · simp only [h2, ne_eq, not_false_eq_true, if_true, run_ite, run_pure]
          exact Or.inl ⟨_, _, rfl⟩
    · simp only [h1, if_false, if_true, run_ite, run_pure]
      exact Or.inl ⟨_, _, rfl⟩

theorem write_memory_outcome (fuel a len : Nat) (data : List Nat) (h4 : a % 4 = 0)
    (w : World) :
    (∃ v w1, write_memory fuel a data len w = Outcome.ret v w1) ∨
      (∃ w1, write_memory fuel a data len w = Outcome.starved w1) ∨
      (∃ w1, write_memory fuel a data len w = Outcome.running w1) := by
  obtain ⟨h, s, le, out, inp⟩ := w
  simp only [write_memory, h4, beq_self_eq_true, c_assert_true_bind, get_le_bind, get_stm_bind]
  rcases inp with _ | ⟨r1, rest1⟩
  · exact Or.inr (Or.inl ⟨_, send_command_bind_nil _ _ _ _ _ _⟩)
  · rw [send_command_bind_any]
    by_cases h1 : char_of_byte h.char_signed r1 = (STM32_ACK : Int)
    · simp only [h1, if_true, one_ne_zero, if_false, run_ite, get_host_bind, write_fd_bind,
        send_byte_bind]
      rcases rest1 with _ | ⟨r2, rest2⟩
      · exact Or.inr (Or.inl ⟨_, read_byte_bind_nil _ _ _ _ _⟩)
      · rw [read_byte_bind]
        by_cases h2 : char_of_byte h.char_signed r2 = (STM32_ACK : Int)
        · simp only [h2, ne_eq, not_true_eq_false, if_false, run_ite, send_byte_bind]
          obtain ⟨cs1, sent, -, hrun⟩ := write_data_run len data
            (u8 ((len : Int) - 1 + ((len % 4 : Nat) : Int))) h s le
            (out ++ [s.cmd.wm, u8 (0xff - (s.cmd.wm : Int))] ++
              mem_bytes h.little_endian (swap_u32 le a) ++
              [u8 (address_cs (swap_u32 le a) : Nat)] ++
              [u8 ((u8 ((len : Int) - 1 + ((len % 4 : Nat) : Int)) : Nat))]) rest2
          rw [bind_run _ _ _ _ _ hrun]
          exact Or.inr (Or.inr ⟨_, bind_running _ _ _ _ (write_padding_run _ _ _ _ _ _ _ _)⟩)
        · simp only [h2, ne_eq, not_false_eq_true, if_true, run_ite, run_pure]
          exact Or.inl ⟨_, _, rfl⟩
    · simp only [h1, if_false, if_true, run_ite, run_pure]
      exact Or.inl ⟨_, _, rfl⟩

/-- C11 (failing inputs): for every GET response `[10, version, o1..o10]`
followed by the ACK, `init_stm32` stores the version and the ten opcodes in
the fields `get, gvr, gid, rm, go, wm, er, wp, uw, rp` in order, but it takes
the byte right after the ten opcodes, the ACK, as the opcode `ur`; it then
waits for 255 further bytes, so it sends no GET VERSION command (the bytes
written stay `0x7F, 0x00, 0xFF`) and does not return. -/
theorem init_stm32_get_ten_opcodes (blv c1 c2 c3 c4 c5 c6 c7 c8 c9 c10 : Nat)
    (hb : ∀ b ∈ [blv, c1, c2, c3, c4, c5, c6, c7, c8, c9, c10], b < 256)
    (h : Host) (s : stm32_t) (le : Bool) (out : List Nat) :
    init_stm32 ⟨h, s, le, out, [STM32_ACK, STM32_ACK, 10, blv, c1, c2, c3, c4, c5, c6, c7, c8,
        c9, c10, STM32_ACK]⟩ =
      Outcome.starved ⟨h, ⟨blv, 0, 0, 0, 0, ⟨c1, c2, c3, c4, c5, c6, c7, c8, c9, c10, STM32_ACK⟩⟩,
        le, out ++ [0x7F, 0x00, 0xFF], []⟩ := by
  have e1 := init_stm32_run STM32_ACK h s le out [STM32_ACK, 10, blv, c1, c2, c3, c4, c5, c6,
    c7, c8, c9, c10, STM32_ACK]
  rw [if_pos rfl] at e1
  have e2 := init_get_starved 10 blv c1 c2 c3 c4 c5 c6 c7 c8 c9 c10 STM32_ACK [] (by decide)
    (by decide) (hb blv (by simp)) (hb c1 (by simp)) (hb c2 (by simp)) (hb c3 (by simp))
    (hb c4 (by simp)) (hb c5 (by simp)) (hb c6 (by simp)) (hb c7 (by simp)) (hb c8 (by simp))
    (hb c9 (by simp)) (hb c10 (by simp)) (by decide) h stm_zero le (out ++ [STM32_CMD_INIT])
  rw [get_frame] at e2
  rw [e1, e2]
  simp [stm_zero, STM32_CMD_INIT]

theorem init_stm32_get_ten_opcodes_witness :
    init_stm32 ⟨⟨true, true⟩, stm_zero, true, [], [STM32_ACK, STM32_ACK, 10, 0x22, 0x00, 0x01,
        0x02, 0x11, 0x21, 0x31, 0x43, 0x63, 0x73, 0x82, STM32_ACK]⟩ =
      Outcome.starved ⟨⟨true, true⟩, ⟨0x22, 0, 0, 0, 0,
        ⟨0x00, 0x01, 0x02, 0x11, 0x21, 0x31, 0x43, 0x63, 0x73, 0x82, STM32_ACK⟩⟩,
        true, [] ++ [0x7F, 0x00, 0xFF], []⟩ :=
  init_stm32_get_ten_opcodes 0x22 0x00 0x01 0x02 0x11 0x21 0x31 0x43 0x63 0x73 0x82 (by decide)
    ⟨true, true⟩ stm_zero true []

/-- C12 (as stated, refuted): a handshake whose GET response is
`[12, 0x22, o1..o10, 0xA1, 0xB2]`, with the two extra bytes `0xA1, 0xB2`,
succeeds and leaves the first extra byte `0xA1` in the capability field
`ur`. -/
theorem get_first_extra_stored :
    (init_stm32 (start ⟨true, false⟩ [0x79, 0x79, 12, 0x22, 0x00, 0x01, 0x02, 0x11, 0x21, 0x31,
        0x43, 0x63, 0x73, 0x82, 0xA1, 0xB2, 0x79, 0x79, 0x20, 0x00, 0x00, 0x79, 0x79, 1, 0x04,
        0x10, 0x79])).value = some 1 ∧
    (init_stm32 (start ⟨true, false⟩ [0x79, 0x79, 12, 0x22, 0x00, 0x01, 0x02, 0x11, 0x21, 0x31,
        0x43, 0x63, 0x73, 0x82, 0xA1, 0xB2, 0x79, 0x79, 0x20, 0x00, 0x00, 0x79, 0x79, 1, 0x04,
        0x10, 0x79])).world.stm.cmd.ur = 0xA1 := by
  have e1 := init_stm32_run STM32_ACK ⟨true, false⟩ stm_zero (detect_le ⟨true, false⟩) []
    (STM32_ACK :: 12 :: 0x22 :: 0x00 :: 0x01 :: 0x02 :: 0x11 :: 0x21 :: 0x31 :: 0x43 :: 0x63 ::
      0x73 :: 0x82 :: 0xA1 :: ([0xB2] ++ STM32_ACK :: [STM32_ACK, 0x20, 0x00, 0x00, STM32_ACK,
      STM32_ACK, 1, 0x04, 0x10, STM32_ACK]))
  rw [if_pos rfl] at e1
  have e2 := init_get_run 12 0x22 0x00 0x01 0x02 0x11 0x21 0x31 0x43 0x63 0x73 0x82 0xA1
    STM32_ACK [0xB2] (by decide) rfl (by decide) (by decide) (by decide) (by decide) (by decide)
    (by decide) (by decide) (by decide) (by decide) (by decide) (by decide) (by decide)
    (by decide) ⟨true, false⟩ stm_zero (detect_le ⟨true, false⟩) ([] ++ [STM32_CMD_INIT])
    [STM32_ACK, 0x20, 0x00, 0x00, STM32_ACK, STM32_ACK, 1, 0x04, 0x10, STM32_ACK]
  rw [if_pos rfl] at e2
  have e3 := init_get_version_run 0x20 0x00 0x00 STM32_ACK (by decide) (by decide) (by decide)
    (by decide) ⟨true, false⟩
    { stm_zero with
      bl_version := 0x22,
      cmd := ⟨0x00, 0x01, 0x02, 0x11, 0x21, 0x31, 0x43, 0x63, 0x73, 0x82, 0xA1⟩ }
    (detect_le ⟨true, false⟩)
    ([] ++ [STM32_CMD_INIT] ++ [STM32_CMD_GET, u8 (0xff - (STM32_CMD_GET : Int))])
    [STM32_ACK, 1, 0x04, 0x10, STM32_ACK]
  rw [if_pos rfl] at e3
  have e4 := init_get_id_accept 0x04 0x10 STM32_ACK (by decide) ⟨true, false⟩
    { stm_zero with
      bl_version := 0x22, version := 0x20, option1 := 0x00, option2 := 0x00,
      cmd := ⟨0x00, 0x01, 0x02, 0x11, 0x21, 0x31, 0x43, 0x63, 0x73, 0x82, 0xA1⟩ }
    (detect_le ⟨true, false⟩)
    ([] ++ [STM32_CMD_INIT] ++ [STM32_CMD_GET, u8 (0xff - (STM32_CMD_GET : Int))] ++
      [0x01, u8 (0xff - ((0x01 : Nat) : Int))]) []
  rw [if_pos rfl] at e4
  have e5 : init_stm32 (start ⟨true, false⟩ [0x79, 0x79, 12, 0x22, 0x00, 0x01, 0x02, 0x11, 0x21,
      0x31, 0x43, 0x63, 0x73, 0x82, 0xA1, 0xB2, 0x79, 0x79, 0x20, 0x00, 0x00, 0x79, 0x79, 1,
      0x04, 0x10, 0x79]) = _ := e1.trans (e2.trans (e3.trans e4))
  rw [e5]
  exact ⟨rfl, rfl⟩

/-- C12 (amended): for every GET response with length byte `N = 12`, that is a
version byte and twelve opcode bytes `o1..o10, x1, x2`, `init_stm32` consumes
both `x1` and `x2`, stores `x1` in the capability field `ur` and `x2` in no
field, and checks as the trailing ACK the byte `t` that immediately follows
`x2`: it goes on with the GET VERSION command when `t` is ACK and returns 0
otherwise. -/
theorem init_stm32_get_twelve_opcodes (blv c1 c2 c3 c4 c5 c6 c7 c8 c9 c10 x1 x2 t : Nat)
    (hb : ∀ b ∈ [blv, c1, c2, c3, c4, c5, c6, c7, c8, c9, c10, x1, t], b < 256)
    (h : Host) (s : stm32_t) (le : Bool) (out rest : List Nat) :
    init_stm32 ⟨h, s, le, out, [STM32_ACK, STM32_ACK, 12, blv, c1, c2, c3, c4, c5, c6, c7, c8,
        c9, c10, x1, x2, t] ++ rest⟩ =
      if t = STM32_ACK then
        init_get_version ⟨h, ⟨blv, 0, 0, 0, 0, ⟨c1, c2, c3, c4, c5, c6, c7, c8, c9, c10, x1⟩⟩, le,
          out ++ [0x7F, 0x00, 0xFF], rest⟩
      else
        Outcome.ret 0 ⟨h, ⟨blv, 0, 0, 0, 0, ⟨c1, c2, c3, c4, c5, c6, c7, c8, c9, c10, x1⟩⟩, le,
          out ++ [0x7F, 0x00, 0xFF], rest⟩ := by
  have e1 := init_stm32_run STM32_ACK h s le out (STM32_ACK :: 12 :: blv :: c1 :: c2 :: c3 ::
    c4 :: c5 :: c6 :: c7 :: c8 :: c9 :: c10 :: x1 :: ([x2] ++ t :: rest))
  rw [if_pos rfl] at e1
  have e2 := init_get_run 12 blv c1 c2 c3 c4 c5 c6 c7 c8 c9 c10 x1 t [x2] (by decide) rfl
    (hb blv (by simp)) (hb c1 (by simp)) (hb c2 (by simp)) (hb c3 (by simp))
    (hb c4 (by simp)) (hb c5 (by simp)) (hb c6 (by simp)) (hb c7 (by simp)) (hb c8 (by simp))
    (hb c9 (by simp)) (hb c10 (by simp)) (hb x1 (by simp)) (hb t (by simp)) h stm_zero le
    (out ++ [STM32_CMD_INIT]) rest
  rw [get_frame] at e2
  have e3 : init_stm32 ⟨h, s, le, out, [STM32_ACK, STM32_ACK, 12, blv, c1, c2, c3, c4, c5, c6,
      c7, c8, c9, c10, x1, x2, t] ++ rest⟩ = _ := e1.trans e2
  rw [e3]
  simp [stm_zero, STM32_CMD_INIT]

theorem init_stm32_get_twelve_opcodes_witness :
    init_stm32 ⟨⟨true, true⟩, stm_zero, true, [], [STM32_ACK, STM32_ACK, 12, 0x22, 0x00, 0x01,
        0x02, 0x11, 0x21, 0x31, 0x43, 0x63, 0x73, 0x82, 0xA1, 0xB2, 0x1F] ++ [0x55]⟩ =
      if 0x1F = STM32_ACK then
        init_get_version ⟨⟨true, true⟩, ⟨0x22, 0, 0, 0, 0,
          ⟨0x00, 0x01, 0x02, 0x11, 0x21, 0x31, 0x43, 0x63, 0x73, 0x82, 0xA1⟩⟩, true,
          [] ++ [0x7F, 0x00, 0xFF], [0x55]⟩
      else
        Outcome.ret 0 ⟨⟨true, true⟩, ⟨0x22, 0, 0, 0, 0,
          ⟨0x00, 0x01, 0x02, 0x11, 0x21, 0x31, 0x43, 0x63, 0x73, 0x82, 0xA1⟩⟩, true,
          [] ++ [0x7F, 0x00, 0xFF], [0x55]⟩ :=
  init_stm32_get_twelve_opcodes 0x22 0x00 0x01 0x02 0x11 0x21 0x31 0x43 0x63 0x73 0x82 0xA1 0xB2
    0x1F (by decide) ⟨true, true⟩ stm_zero true [] [0x55]

/-- C13 (failing inputs): for every word-aligned address, every data of length
`0..255` and a device that acknowledges the command and the address,
`write_memory` does not terminate: the condition `i >= 0` of its padding loop
holds for every `uint8_t i`, so for every step budget the call is still
running, and all it has written after the eight bytes of command, address,
checksum and length and the data bytes is one `0xFF` per step. No checksum
byte follows the padding and no value is returned. -/
theorem write_memory_padding_never_ends (a : Nat) (h4 : a % 4 = 0) (data : List Nat)
    (_hlen : data.length ≤ 255) (hb : ∀ d ∈ data, d < 256) (w : World) (rest : List Nat)
    (hw : w.inp = STM32_ACK :: STM32_ACK :: rest) (fuel : Nat) :
    ∃ frame, frame.length = 8 ∧
      write_memory fuel a data data.length w =
        Outcome.running
          { w with out := w.out ++ frame ++ data ++ List.replicate fuel 0xFF, inp := rest } := by
  obtain ⟨h, s, le, out, inp⟩ := w
  simp only at hw
  subst hw
  refine ⟨[s.cmd.wm, u8 (0xff - (s.cmd.wm : Int))] ++
    mem_bytes h.little_endian (swap_u32 le a) ++ [address_cs (swap_u32 le a)] ++
    [u8 ((data.length : Int) - 1 + ((data.length % 4 : Nat) : Int))], ?_, ?_⟩
  · cases hl : h.little_endian <;> simp [mem_bytes]
  · rw [write_memory_run_acked fuel a data h4 hb]
    simp

theorem write_memory_padding_never_ends_witness :
    ∃ frame, frame.length = 8 ∧
      write_memory 9 0x08000000 [0x01, 0x02, 0x03] [0x01, 0x02, 0x03].length
          (start ⟨true, true⟩ [0x79, 0x79]) =
        Outcome.running
          { start ⟨true, true⟩ [0x79, 0x79] with
            out := (start ⟨true, true⟩ [0x79, 0x79]).out ++ frame ++ [0x01, 0x02, 0x03] ++
              List.replicate 9 0xFF,
            inp := [] } :=
  write_memory_padding_never_ends 0x08000000 (by decide) [0x01, 0x02, 0x03] (by decide)
    (by decide) (start ⟨true, true⟩ [0x79, 0x79]) [] rfl 9

/-- C14 (failing input): for `data = [0x01, 0x02, 0x03]` at address
`0x08000000` with write opcode `0x31`, `write_memory` sends the length byte 5
right after the address ACK and then the data bytes in order, as claimed; but
for every step budget it is still in its padding loop, having sent one `0xFF`
per step: the padding does not stop after four bytes and the checksum
`5 ^ 0x01 ^ 0x02 ^ 0x03 ^ 0xFF ^ 0xFF ^ 0xFF ^ 0xFF = 0x05` is never
transmitted. -/
theorem write_memory_checksum_never_sent (h : Host) (fuel : Nat) :
    write_memory fuel 0x08000000 [0x01, 0x02, 0x03] 3
        ⟨h, ⟨0, 0, 0, 0, 0, ⟨0x00, 0x01, 0x02, 0x11, 0x21, 0x31, 0x43, 0x63, 0x73, 0x82, 0x92⟩⟩,
          detect_le h, [], [0x79, 0x79]⟩ =
      Outcome.running
        ⟨h, ⟨0, 0, 0, 0, 0, ⟨0x00, 0x01, 0x02, 0x11, 0x21, 0x31, 0x43, 0x63, 0x73, 0x82, 0x92⟩⟩,
          detect_le h,
          [0x31, 0xCE, 0x08, 0x00, 0x00, 0x00, 0x08, 0x05, 0x01, 0x02, 0x03] ++
            List.replicate fuel 0xFF, []⟩ ∧
    5 ^^^ 0x01 ^^^ 0x02 ^^^ 0x03 ^^^ 0xFF ^^^ 0xFF ^^^ 0xFF ^^^ 0xFF = 0x05 := by
  refine ⟨?_, by decide⟩
  have e := write_memory_run_acked fuel 0x08000000 [0x01, 0x02, 0x03] (by decide) (by decide) h
    ⟨0, 0, 0, 0, 0, ⟨0x00, 0x01, 0x02, 0x11, 0x21, 0x31, 0x43, 0x63, 0x73, 0x82, 0x92⟩⟩
    (detect_le h) [] []
  have hbytes : mem_bytes h.little_endian (swap_u32 (detect_le h) 0x08000000) =
      [0x08, 0x00, 0x00, 0x00] := by
    rw [detect_le_eq, mem_bytes_swap _ _ (by decide)]
  have hcs : address_cs (swap_u32 (detect_le h) 0x08000000) = 0x08 := by
    rw [address_cs_swap]
    decide
  have hseed : u8 ((([0x01, 0x02, 0x03] : List Nat).length : Int) - 1 +
      ((([0x01, 0x02, 0x03] : List Nat).length % 4 : Nat) : Int)) = 0x05 := by decide
  have hwm : u8 (0xff - ((0x31 : Nat) : Int)) = 0xCE := by decide
  rw [hbytes, hcs, hseed] at e
  simp only [hwm] at e
  exact e

/-- C15: for every reply byte `r` other than `0x79` given in answer to the init
byte, `init_stm32` returns 0 having written only the byte `0x7F` and consumed
only `r`, and every field of the session record is zero, whatever the record
held before the call. -/
theorem init_stm32_not_acked (r : Nat) (hr : r ≠ 0x79) (w : World) (rest : List Nat)
    (hw : w.inp = r :: rest) :
    init_stm32 w =
      Outcome.ret 0
        { w with
          stm := ⟨0, 0, 0, 0, 0, ⟨0, 0, 0, 0, 0, 0, 0, 0, 0, 0, 0⟩⟩,
          out := w.out ++ [0x7F],
          inp := rest } := by
  obtain ⟨h, s, le, out, inp⟩ := w
  simp only at hw
  subst hw
  have hne : r ≠ STM32_ACK := hr
  rw [init_stm32_run, if_neg hne]
  rfl

theorem init_stm32_not_acked_witness :
    init_stm32 ⟨⟨true, true⟩, ⟨1, 2, 3, 4, 5, ⟨6, 7, 8, 9, 10, 11, 12, 13, 14, 15, 16⟩⟩, true, [],
        [0x1F, 0x79]⟩ =
      Outcome.ret 0
        { (⟨⟨true, true⟩, ⟨1, 2, 3, 4, 5, ⟨6, 7, 8, 9, 10, 11, 12, 13, 14, 15, 16⟩⟩, true, [],
            [0x1F, 0x79]⟩ : World) with
          stm := ⟨0, 0, 0, 0, 0, ⟨0, 0, 0, 0, 0, 0, 0, 0, 0, 0, 0⟩⟩,
          out := [] ++ [0x7F],
          inp := [0x79] } :=
  init_stm32_not_acked 0x1F (by decide)
    ⟨⟨true, true⟩, ⟨1, 2, 3, 4, 5, ⟨6, 7, 8, 9, 10, 11, 12, 13, 14, 15, 16⟩⟩, true, [],
      [0x1F, 0x79]⟩ [0x79] rfl

/-- C16 (as stated, refuted): when the byte after a GET response
`[11, 0x22, o1..o11]` is NACK, `init_stm32` returns 0 and the session record
keeps the version and the eleven opcodes: it is not the all-zero record. -/
theorem init_stm32_failure_keeps_fields :
    init_stm32 (start ⟨true, true⟩ [0x79, 0x79, 11, 0x22, 0x00, 0x01, 0x02, 0x11, 0x21, 0x31,
        0x43, 0x63, 0x73, 0x82, 0x92, 0x1F]) =
      Outcome.ret 0 ⟨⟨true, true⟩, ⟨0x22, 0, 0, 0, 0,
        ⟨0x00, 0x01, 0x02, 0x11, 0x21, 0x31, 0x43, 0x63, 0x73, 0x82, 0x92⟩⟩,
        detect_le ⟨true, true⟩, [0x7F, 0x00, 0xFF], []⟩ ∧
    (⟨0x22, 0, 0, 0, 0, ⟨0x00, 0x01, 0x02, 0x11, 0x21, 0x31, 0x43, 0x63, 0x73, 0x82, 0x92⟩⟩ :
      stm32_t) ≠ stm_zero := by
  refine ⟨?_, by decide⟩
  exact init_stm32_get_trailing 11 0x22 0x00 0x01 0x02 0x11 0x21 0x31 0x43 0x63 0x73 0x82 0x92
    0x1F [] (by decide) rfl (by decide) (by decide) ⟨true, true⟩ stm_zero
    (detect_le ⟨true, true⟩) [] []

/-- C16 (amended): `init_stm32` zeroes the session record on entry and never
rolls it back, so at each of its eight `return 0` the record holds exactly the
fields stored before that point and zero elsewhere. It is all-zero when the
failure is the init reply or the reply to the GET command; after the GET
response (trailing ACK, GET VERSION command) it keeps `bl_version` and the
eleven opcodes; after the GET VERSION response (trailing ACK, GET ID command,
GET ID length) also `version`, `option1`, `option2`; and when only the last
ACK is missing also `pid`. Here `r` is any byte other than ACK, `l` any
length byte other than 1, and the GET response has any length byte `n`. -/
theorem init_stm32_failure_record
    (n blv c1 c2 c3 c4 c5 c6 c7 c8 c9 c10 c11 ver op1 op2 idh idl r l : Nat) (ex : List Nat)
    (hb : ∀ b ∈ [n, blv, c1, c2, c3, c4, c5, c6, c7, c8, c9, c10, c11], b < 256)
    (hex : ex.length = (n + 245) % 256) (hv : ver < 256) (h1 : op1 < 256) (h2 : op2 < 256)
    (hr : r < 256) (hne : r ≠ STM32_ACK) (hl : l < 256) (hl1 : l ≠ 1)
    (h : Host) (s : stm32_t) (le : Bool) (out rest : List Nat) :
    init_stm32 ⟨h, s, le, out, r :: rest⟩ =
      Outcome.ret 0 ⟨h, stm_zero, le, out ++ [0x7F], rest⟩ ∧
    init_stm32 ⟨h, s, le, out, STM32_ACK :: r :: rest⟩ =
      Outcome.ret 0 ⟨h, stm_zero, le, out ++ [0x7F, 0x00, 0xFF], rest⟩ ∧
    init_stm32 ⟨h, s, le, out, [STM32_ACK, STM32_ACK, n, blv, c1, c2, c3, c4, c5, c6, c7, c8,
        c9, c10, c11] ++ ex ++ r :: rest⟩ =
      Outcome.ret 0 ⟨h, ⟨blv, 0, 0, 0, 0, ⟨c1, c2, c3, c4, c5, c6, c7, c8, c9, c10, c11⟩⟩, le,
        out ++ [0x7F, 0x00, 0xFF], rest⟩ ∧
    init_stm32 ⟨h, s, le, out, [STM32_ACK, STM32_ACK, n, blv, c1, c2, c3, c4, c5, c6, c7, c8,
        c9, c10, c11] ++ ex ++ STM32_ACK :: r :: rest⟩ =
      Outcome.ret 0 ⟨h, ⟨blv, 0, 0, 0, 0, ⟨c1, c2, c3, c4, c5, c6, c7, c8, c9, c10, c11⟩⟩, le,
        out ++ [0x7F, 0x00, 0xFF, c2, 255 - c2], rest⟩ ∧
    init_stm32 ⟨h, s, le, out, [STM32_ACK, STM32_ACK, n, blv, c1, c2, c3, c4, c5, c6, c7, c8,
        c9, c10, c11] ++ ex ++ STM32_ACK :: STM32_ACK :: ver :: op1 :: op2 :: r :: rest⟩ =
      Outcome.ret 0 ⟨h, ⟨blv, ver, op1, op2, 0, ⟨c1, c2, c3, c4, c5, c6, c7, c8, c9, c10, c11⟩⟩,
        le, out ++ [0x7F, 0x00, 0xFF, c2, 255 - c2], rest⟩ ∧
    init_stm32 ⟨h, s, le, out, [STM32_ACK, STM32_ACK, n, blv, c1, c2, c3, c4, c5, c6, c7, c8,
        c9, c10, c11] ++ ex ++
        STM32_ACK :: STM32_ACK :: ver :: op1 :: op2 :: STM32_ACK :: r :: rest⟩ =
      Outcome.ret 0 ⟨h, ⟨blv, ver, op1, op2, 0, ⟨c1, c2, c3, c4, c5, c6, c7, c8, c9, c10, c11⟩⟩,
        le, out ++ [0x7F, 0x00, 0xFF, c2, 255 - c2, c3, 255 - c3], rest⟩ ∧
    init_stm32 ⟨h, s, le, out, [STM32_ACK, STM32_ACK, n, blv, c1, c2, c3, c4, c5, c6, c7, c8,
        c9, c10, c11] ++ ex ++
        STM32_ACK :: STM32_ACK :: ver :: op1 :: op2 :: STM32_ACK :: STM32_ACK :: l :: rest⟩ =
      Outcome.ret 0 ⟨h, ⟨blv, ver, op1, op2, 0, ⟨c1, c2, c3, c4, c5, c6, c7, c8, c9, c10, c11⟩⟩,
        le, out ++ [0x7F, 0x00, 0xFF, c2, 255 - c2, c3, 255 - c3], rest⟩ ∧
    init_stm32 ⟨h, s, le, out, [STM32_ACK, STM32_ACK, n, blv, c1, c2, c3, c4, c5, c6, c7, c8,
        c9, c10, c11] ++ ex ++
        STM32_ACK :: STM32_ACK :: ver :: op1 :: op2 :: STM32_ACK :: STM32_ACK :: 1 :: idh ::
          idl :: r :: rest⟩ =
      Outcome.ret 0 ⟨h, ⟨blv, ver, op1, op2,
          (int_bits (char_of_byte h.char_signed idh * 256) |||
            int_bits (char_of_byte h.char_signed idl)) % 65536,
          ⟨c1, c2, c3, c4, c5, c6, c7, c8, c9, c10, c11⟩⟩,
        le, out ++ [0x7F, 0x00, 0xFF, c2, 255 - c2, c3, 255 - c3], rest⟩ := by
  have hc2 : c2 < 256 := hb c2 (by simp)
  have hc3 : c3 < 256 := hb c3 (by simp)
  refine ⟨?_, ?_, ?_, ?_, ?_, ?_, ?_, ?_⟩
  · rw [init_stm32_run, if_neg hne]
    rfl
  · rw [init_stm32_run, if_pos rfl, init_get_nack r hr hne]
    simp [STM32_CMD_INIT]
  · exact init_stm32_get_trailing n blv c1 c2 c3 c4 c5 c6 c7 c8 c9 c10 c11 r ex hb hex hr hne
      h s le out rest
  · rw [init_stm32_to_get_version n blv c1 c2 c3 c4 c5 c6 c7 c8 c9 c10 c11 ex hb hex,
      init_get_version_nack r hr hne, u8_complement c2 hc2]
    simp
  · rw [init_stm32_to_get_version n blv c1 c2 c3 c4 c5 c6 c7 c8 c9 c10 c11 ex hb hex,
      init_get_version_run ver op1 op2 r hv h1 h2 hr, if_neg hne, u8_complement c2 hc2]
    simp
  · rw [init_stm32_to_get_id_any n blv c1 c2 c3 c4 c5 c6 c7 c8 c9 c10 c11 ver op1 op2 ex hb hex
      hv h1 h2, init_get_id_nack r hr hne, u8_complement c3 hc3]
    simp
  · rw [init_stm32_to_get_id_any n blv c1 c2 c3 c4 c5 c6 c7 c8 c9 c10 c11 ver op1 op2 ex hb hex
      hv h1 h2, init_get_id_reject l hl hl1, u8_complement c3 hc3]
    simp
  · rw [init_stm32_to_get_id_any n blv c1 c2 c3 c4 c5 c6 c7 c8 c9 c10 c11 ver op1 op2 ex hb hex
      hv h1 h2, init_get_id_accept idh idl r hr, if_neg hne, u8_complement c3 hc3]
    simp

theorem init_stm32_failure_record_witness :
    init_stm32 ⟨⟨true, true⟩, stm_zero, true, [], [STM32_ACK, STM32_ACK, 11, 0x22, 0x00, 0x01,
        0x02, 0x11, 0x21, 0x31, 0x43, 0x63, 0x73, 0x82, 0x92] ++ [] ++
        STM32_ACK :: STM32_ACK :: 0x20 :: 0x00 :: 0x00 :: 0x1F :: [0x55]⟩ =
      Outcome.ret 0 ⟨⟨true, true⟩, ⟨0x22, 0x20, 0x00, 0x00, 0,
        ⟨0x00, 0x01, 0x02, 0x11, 0x21, 0x31, 0x43, 0x63, 0x73, 0x82, 0x92⟩⟩,
        true, [] ++ [0x7F, 0x00, 0xFF, 0x01, 255 - 0x01], [0x55]⟩ :=
  (init_stm32_failure_record 11 0x22 0x00 0x01 0x02 0x11 0x21 0x31 0x43 0x63 0x73 0x82 0x92
    0x20 0x00 0x00 0x04 0x10 0x1F 2 [] (by decide) rfl (by decide) (by decide) (by decide)
    (by decide) (by decide) (by decide) (by decide) ⟨true, true⟩ stm_zero true []
    [0x55]).2.2.2.2.1

/-- C17: for every address `a` with `a mod 4 != 0`, `read_memory` and
`write_memory` end in the failed assertion with the world exactly as it was:
no byte written, none read, no buffer returned; and for every `a` with
`a mod 4 = 0` neither call ends in a failed assertion, whatever the device
does. -/
theorem alignment_assertion (a len fuel : Nat) (data : List Nat) (w : World) :
    (a % 4 ≠ 0 →
      read_memory a data len w = Outcome.assert_failed w ∧
      write_memory fuel a data len w = Outcome.assert_failed w) ∧
    (a % 4 = 0 →
      (∀ w1, read_memory a data len w ≠ Outcome.assert_failed w1) ∧
      (∀ w1, write_memory fuel a data len w ≠ Outcome.assert_failed w1)) := by
  refine ⟨fun h4 => ⟨read_memory_unaligned a len data h4 w,
    write_memory_unaligned fuel a len data h4 w⟩, fun h4 => ⟨fun w1 hq => ?_, fun w1 hq => ?_⟩⟩
  · rcases read_memory_outcome a len data h4 w with ⟨v, w2, hv⟩ | ⟨w2, hv⟩ <;>
      rw [hv] at hq <;> cases hq
  · rcases write_memory_outcome fuel a len data h4 w with ⟨v, w2, hv⟩ | ⟨w2, hv⟩ | ⟨w2, hv⟩ <;>
      rw [hv] at hq <;> cases hq

theorem alignment_assertion_witness :
    (read_memory 0x08000002 [0, 0] 2 (start ⟨true, true⟩ [0x79, 0x79, 0x79, 1, 2]) =
        Outcome.assert_failed (start ⟨true, true⟩ [0x79, 0x79, 0x79, 1, 2]) ∧
      write_memory 7 0x08000002 [0, 0] 2 (start ⟨true, true⟩ [0x79, 0x79, 0x79, 1, 2]) =
        Outcome.assert_failed (start ⟨true, true⟩ [0x79, 0x79, 0x79, 1, 2])) ∧
    ((∀ w1, read_memory 0x08000004 [0, 0] 2 (start ⟨true, true⟩ [0x79, 0x79, 0x79, 1, 2]) ≠
        Outcome.assert_failed w1) ∧
      (∀ w1, write_memory 7 0x08000004 [0, 0] 2 (start ⟨true, true⟩ [0x79, 0x79, 0x79, 1, 2]) ≠
        Outcome.assert_failed w1)) :=
  ⟨(alignment_assertion 0x08000002 2 7 [0, 0] (start ⟨true, true⟩ [0x79, 0x79, 0x79, 1, 2])).1
      (by decide),
    (alignment_assertion 0x08000004 2 7 [0, 0] (start ⟨true, true⟩ [0x79, 0x79, 0x79, 1, 2])).2
      (by decide)⟩

/-- C18: for every word-aligned address and every length, `read_memory` aborts
at the first reply `r` that is not ACK. If the command is not acknowledged
only the two command bytes have been written; if the address frame is not
acknowledged nothing follows the address checksum; if the length frame is not
acknowledged no byte after `r` is read. In each case the call returns 0 with
the caller's buffer as it was. -/
theorem read_memory_aborts (a len r : Nat) (data : List Nat) (h4 : a % 4 = 0) (hr : r < 256)
    (hne : r ≠ 0x79) (h : Host) (s : stm32_t) (le : Bool) (out rest : List Nat) :
    read_memory a data len ⟨h, s, le, out, r :: rest⟩ =
        Outcome.ret (0, data)
          ⟨h, s, le, out ++ [s.cmd.rm, u8 (0xff - (s.cmd.rm : Int))], rest⟩ ∧
    read_memory a data len ⟨h, s, le, out, 0x79 :: r :: rest⟩ =
        Outcome.ret (0, data)
          ⟨h, s, le, out ++ [s.cmd.rm, u8 (0xff - (s.cmd.rm : Int))] ++
            mem_bytes h.little_endian (swap_u32 le a) ++ [address_cs (swap_u32 le a)], rest⟩ ∧
    read_memory a data len ⟨h, s, le, out, 0x79 :: 0x79 :: r :: rest⟩ =
        Outcome.ret (0, data)
          ⟨h, s, le, out ++ [s.cmd.rm, u8 (0xff - (s.cmd.rm : Int))] ++
            mem_bytes h.little_endian (swap_u32 le a) ++ [address_cs (swap_u32 le a)] ++
            [u8 ((len : Int) - 1), u8 (0xFF - (u8 ((len : Int) - 1) : Int))], rest⟩ :=
  read_memory_nack a len r data h4 hr hne h s le out rest

theorem read_memory_aborts_witness :
    read_memory 0x08000000 [7, 7] 2 ⟨⟨true, true⟩, stm_zero, true, [], 0x1F :: [0x55]⟩ =
        Outcome.ret (0, [7, 7])
          ⟨⟨true, true⟩, stm_zero, true,
            [] ++ [stm_zero.cmd.rm, u8 (0xff - (stm_zero.cmd.rm : Int))], [0x55]⟩ :=
  (read_memory_aborts 0x08000000 2 0x1F [7, 7] (by decide) (by decide) (by decide) ⟨true, true⟩
    stm_zero true [] [0x55]).1

theorem swap_u32_twice (v : Nat) (hv : v < 4294967296) : swap_u32 true (swap_u32 true v) = v := by
  rw [swap_u32_le (swap_u32 true v), swap_u32_le v]
  obtain ⟨e1, e2, e3, e4⟩ := byte_sum_parts (v / 16777216 % 256) (v / 65536 % 256)
    (v / 256 % 256) (v % 256) (Nat.mod_lt _ (by norm_num)) (Nat.mod_lt _ (by norm_num))
    (Nat.mod_lt _ (by norm_num)) (Nat.mod_lt _ (by norm_num))
  rw [e1, e2, e3, e4]
  clear e1 e2 e3 e4
  omega

/-- C19: for every 32-bit value `v`: with `le` false `swap_u32 v = v`; with
`le` true `swap_u32 v` is `v` with its four bytes in reversed order (its bytes
from the most significant down are the bytes of `v` from the least significant
up); and for either value of `le`, swapping twice gives `v` back. -/
theorem swap_u32_reverses (v : Nat) (hv : v < 4294967296) :
    swap_u32 false v = v ∧
    swap_u32 true v =
      (v % 256) * 16777216 + (v / 256 % 256) * 65536 + (v / 65536 % 256) * 256 + v / 16777216 ∧
    mem_bytes false (swap_u32 true v) = (mem_bytes false v).reverse ∧
    (∀ le, swap_u32 le (swap_u32 le v) = v) := by
  have h3 : v / 16777216 % 256 = v / 16777216 := by omega
  refine ⟨rfl, ?_, ?_, fun le => ?_⟩
  · rw [swap_u32_le, h3]
    omega
  · have hm := mem_bytes_swap true v hv
    rw [swap_u32_le] at hm ⊢
    obtain ⟨e1, e2, e3, e4⟩ := byte_sum_parts (v / 16777216 % 256) (v / 65536 % 256)
      (v / 256 % 256) (v % 256) (Nat.mod_lt _ (by norm_num)) (Nat.mod_lt _ (by norm_num))
      (Nat.mod_lt _ (by norm_num)) (Nat.mod_lt _ (by norm_num))
    simp only [mem_bytes, Bool.false_eq_true, if_false, Nat.shiftRight_eq_div_pow]
    norm_num
    rw [e1, e2, e3, e4]
    simp
  · cases le
    · rfl
    · exact swap_u32_twice v hv

theorem swap_u32_reverses_witness :
    swap_u32 false 0x12345678 = 0x12345678 ∧
    swap_u32 true 0x12345678 =
      (0x12345678 % 256) * 16777216 + (0x12345678 / 256 % 256) * 65536 +
        (0x12345678 / 65536 % 256) * 256 + 0x12345678 / 16777216 ∧
    mem_bytes false (swap_u32 true 0x12345678) = (mem_bytes false 0x12345678).reverse ∧
    (∀ le, swap_u32 le (swap_u32 le 0x12345678) = 0x12345678) :=
  swap_u32_reverses 0x12345678 (by decide)

theorem read_memory_zero_len (a : Nat) (buf rest : List Nat) (h4 : a % 4 = 0) (h : Host)
    (s : stm32_t) (le : Bool) (out : List Nat) :
    read_memory a buf 0 ⟨h, s, le, out, STM32_ACK :: STM32_ACK :: STM32_ACK :: rest⟩ =
      Outcome.ret (1, buf) ⟨h, s, le,
        out ++ ([s.cmd.rm, u8 (0xff - (s.cmd.rm : Int))] ++
          mem_bytes h.little_endian (swap_u32 le a) ++ [address_cs (swap_u32 le a)]) ++
          [0xFF, 0x00], rest⟩ := by
  rw [read_memory_run_acked a 0 buf rest h4]
  have e1 : u8 (((0 : Nat) : Int) - 1) = 0xFF := by decide
  have e2 : u8 (0xFF - ((0xFF : Nat) : Int)) = 0x00 := by decide
  rw [e1, e2]
  simp [read_data]

theorem frame_length (l le : Bool) (rm a : Nat) :
    ([rm, u8 (0xff - (rm : Int))] ++ mem_bytes l (swap_u32 le a) ++
      [address_cs (swap_u32 le a)]).length = 7 := by
  cases l <;> simp [mem_bytes]

theorem main_body_run (blv c1 c2 c3 c4 c5 c6 c7 c8 c9 c10 c11 ver op1 op2 idh idl : Nat)
    (hb : ∀ b ∈ [blv, c1, c2, c3, c4, c5, c6, c7, c8, c9, c10, c11, ver, op1, op2], b < 256)
    (h : Host) (buf rest : List Nat) :
    ∃ s1, main_body buf (start h ([STM32_ACK, STM32_ACK, 11, blv, c1, c2, c3, c4, c5, c6, c7,
        c8, c9, c10, c11, STM32_ACK, STM32_ACK, ver, op1, op2, STM32_ACK, STM32_ACK, 1, idh,
        idl, STM32_ACK] ++ STM32_ACK :: STM32_ACK :: STM32_ACK :: rest)) =
      Outcome.ret buf ⟨h, s1, detect_le h,
        [0x7F, 0x00, 0xFF, c2, 255 - c2, c3, 255 - c3, c4, 255 - c4, 0x00, 0x00, 0x00, 0x00,
          0x00, 0xFF, 0x00], rest⟩ := by
  have h3 : c3 < 256 := hb c3 (by simp)
  have h4 : c4 < 256 := hb c4 (by simp)
  have e1 := init_stm32_to_get_id blv c1 c2 c3 c4 c5 c6 c7 c8 c9 c10 c11 ver op1 op2 hb h
    stm_zero (detect_le h) [] (STM32_ACK :: 1 :: idh :: idl :: STM32_ACK :: STM32_ACK ::
      STM32_ACK :: STM32_ACK :: rest)
  have e2 := init_get_id_accept idh idl STM32_ACK (by decide) h
    ⟨blv, ver, op1, op2, 0, ⟨c1, c2, c3, c4, c5, c6, c7, c8, c9, c10, c11⟩⟩ (detect_le h)
    ([] ++ [0x7F, 0x00, 0xFF, c2, 255 - c2]) (STM32_ACK :: STM32_ACK :: STM32_ACK :: rest)
  rw [if_pos rfl] at e2
  have e3 := e1.trans e2
  have hbytes : mem_bytes h.little_endian (swap_u32 (detect_le h) 0) = [0x00, 0x00, 0x00, 0x00] := by
    rw [detect_le_eq, mem_bytes_swap _ _ (by decide)]
  have hcs : address_cs (swap_u32 (detect_le h) 0) = 0x00 := by
    rw [address_cs_swap]
    decide
  refine ⟨⟨blv, ver, op1, op2, (int_bits (char_of_byte h.char_signed idh * 256) |||
    int_bits (char_of_byte h.char_signed idl)) % 65536,
    ⟨c1, c2, c3, c4, c5, c6, c7, c8, c9, c10, c11⟩⟩, ?_⟩
  simp only [main_body, start, get_host_bind, set_le_bind, List.cons_append, List.nil_append]
  rw [bind_run _ _ _ _ _ e3]
  simp only [one_ne_zero, if_false, run_ite]
  rw [bind_run _ _ _ _ _ (read_memory_zero_len 0 buf rest (by decide) _ _ _ _)]
  simp only [run_pure, hbytes, hcs, u8_complement c3 h3, u8_complement c4 h4]
  simp

/-- C20: in `read_memory` with a device that acknowledges every frame, for
every `len` in `1..255` the count byte sent is `len - 1` and the data bytes
read are exactly `len`, the count byte plus one. For `len = 0` the count byte
sent is `0xFF` with checksum `0x00`, which asks the device for 256 bytes,
while no data byte is read and the buffer is returned unchanged; and this is
the call `main` makes, since it passes `(uint8_t)sizeof(buffer) = 0` for its
256-byte buffer: after a successful handshake `main` writes the read command
for address 0 ending in `0xFF, 0x00` and reads nothing after the three ACKs. -/
theorem read_memory_count_byte (a len : Nat) (h4 : a % 4 = 0) (w : World)
    (ds rest buf : List Nat) (hds : ds.length = len)
    (hw : w.inp = [STM32_ACK, STM32_ACK, STM32_ACK] ++ ds ++ rest) :
    (1 ≤ len → len ≤ 255 →
      ∃ frame count, frame.length = 7 ∧
        (read_memory a buf len w).world.out = w.out ++ frame ++ [count, 255 - count] ∧
        (read_memory a buf len w).world.inp = rest ∧
        ds.length = count + 1) ∧
    (len = 0 →
      ∃ frame, frame.length = 7 ∧
        read_memory a buf len w =
          Outcome.ret (1, buf) { w with out := w.out ++ frame ++ [0xFF, 0x00], inp := rest }) ∧
    (∀ (h : Host) (blv c1 c2 c3 c4 c5 c6 c7 c8 c9 c10 c11 ver op1 op2 idh idl : Nat),
      (∀ b ∈ [blv, c1, c2, c3, c4, c5, c6, c7, c8, c9, c10, c11, ver, op1, op2], b < 256) →
      ∃ s1, main_body buf (start h ([STM32_ACK, STM32_ACK, 11, blv, c1, c2, c3, c4, c5, c6, c7,
          c8, c9, c10, c11, STM32_ACK, STM32_ACK, ver, op1, op2, STM32_ACK, STM32_ACK, 1, idh,
          idl, STM32_ACK] ++ STM32_ACK :: STM32_ACK :: STM32_ACK :: rest)) =
        Outcome.ret buf ⟨h, s1, detect_le h,
          [0x7F, 0x00, 0xFF, c2, 255 - c2, c3, 255 - c3, c4, 255 - c4, 0x00, 0x00, 0x00, 0x00,
            0x00, 0xFF, 0x00], rest⟩) := by
  obtain ⟨h, s, le, out, inp⟩ := w
  simp only at hw
  subst hw
  refine ⟨fun hl1 hl2 => ?_, fun hl0 => ?_, fun h1 blv c1 c2 c3 c4 c5 c6 c7 c8 c9 c10 c11 ver
    op1 op2 idh idl hb => main_body_run blv c1 c2 c3 c4 c5 c6 c7 c8 c9 c10 c11 ver op1 op2 idh idl
    hb h1 buf rest⟩
  · subst hds
    obtain ⟨data1, hd⟩ := read_data_returns ds 0 buf h s le
      (out ++ [s.cmd.rm, u8 (0xff - (s.cmd.rm : Int))] ++
        mem_bytes h.little_endian (swap_u32 le a) ++ [address_cs (swap_u32 le a)] ++
        [u8 ((ds.length : Int) - 1), u8 (0xFF - (u8 ((ds.length : Int) - 1) : Int))]) rest
    have hrun := read_memory_run_acked a ds.length buf (ds ++ rest) h4 h s le out
    rw [bind_run _ _ _ _ _ hd] at hrun
    have hrun2 : read_memory a buf ds.length
        ⟨h, s, le, out, [STM32_ACK, STM32_ACK, STM32_ACK] ++ ds ++ rest⟩ = _ := hrun
    have e1 : u8 ((ds.length : Int) - 1) = ds.length - 1 := by unfold u8; omega
    have e2 : u8 (0xFF - ((ds.length - 1 : Nat) : Int)) = 255 - (ds.length - 1) := by
      unfold u8; omega
    refine ⟨[s.cmd.rm, u8 (0xff - (s.cmd.rm : Int))] ++
      mem_bytes h.little_endian (swap_u32 le a) ++ [address_cs (swap_u32 le a)],
      ds.length - 1, frame_length _ _ _ _, ?_, ?_, by omega⟩
    · rw [hrun2, e1, e2]
      simp [Outcome.world]
    · rw [hrun2]
      rfl
  · subst hl0
    have hnil : ds = [] := List.length_eq_zero.mp hds
    subst hnil
    refine ⟨[s.cmd.rm, u8 (0xff - (s.cmd.rm : Int))] ++
      mem_bytes h.little_endian (swap_u32 le a) ++ [address_cs (swap_u32 le a)],
      frame_length _ _ _ _, ?_⟩
    exact read_memory_zero_len a buf rest h4 h s le out

theorem read_memory_count_byte_witness :
    (∃ frame count, frame.length = 7 ∧
      (read_memory 0x08000000 [0, 0, 0, 0] 4
          (start ⟨true, true⟩ ([STM32_ACK, STM32_ACK, STM32_ACK] ++ [1, 2, 3, 4] ++
            [0x55]))).world.out =
        (start ⟨true, true⟩ ([STM32_ACK, STM32_ACK, STM32_ACK] ++ [1, 2, 3, 4] ++ [0x55])).out ++
          frame ++ [count, 255 - count] ∧
      (read_memory 0x08000000 [0, 0, 0, 0] 4
          (start ⟨true, true⟩ ([STM32_ACK, STM32_ACK, STM32_ACK] ++ [1, 2, 3, 4] ++
            [0x55]))).world.inp = [0x55] ∧
      [1, 2, 3, 4].length = count + 1) ∧
    (∃ frame, frame.length = 7 ∧
      read_memory 0 [9, 9] 0
          (start ⟨true, true⟩ ([STM32_ACK, STM32_ACK, STM32_ACK] ++ [] ++ [0x55])) =
        Outcome.ret (1, [9, 9])
          { start ⟨true, true⟩ ([STM32_ACK, STM32_ACK, STM32_ACK] ++ [] ++ [0x55]) with
            out := (start ⟨true, true⟩ ([STM32_ACK, STM32_ACK, STM32_ACK] ++ [] ++ [0x55])).out ++
              frame ++ [0xFF, 0x00],
            inp := [0x55] }) ∧
    (∃ s1, main_body [9, 9] (start ⟨true, true⟩ ([STM32_ACK, STM32_ACK, 11, 0x22, 0x00, 0x01,
        0x02, 0x11, 0x21, 0x31, 0x43, 0x63, 0x73, 0x82, 0x92, STM32_ACK, STM32_ACK, 0x20, 0x00,
        0x00, STM32_ACK, STM32_ACK, 1, 0x04, 0x10, STM32_ACK] ++
        STM32_ACK :: STM32_ACK :: STM32_ACK :: [0x55])) =
      Outcome.ret [9, 9] ⟨⟨true, true⟩, s1, detect_le ⟨true, true⟩,
        [0x7F, 0x00, 0xFF, 0x01, 255 - 0x01, 0x02, 255 - 0x02, 0x11, 255 - 0x11, 0x00, 0x00,
          0x00, 0x00, 0x00, 0xFF, 0x00], [0x55]⟩) :=
  ⟨(read_memory_count_byte 0x08000000 4 (by decide)
      (start ⟨true, true⟩ ([STM32_ACK, STM32_ACK, STM32_ACK] ++ [1, 2, 3, 4] ++ [0x55]))
      [1, 2, 3, 4] [0x55] [0, 0, 0, 0] rfl rfl).1 (by decide) (by decide),
    (read_memory_count_byte 0 0 (by decide)
      (start ⟨true, true⟩ ([STM32_ACK, STM32_ACK, STM32_ACK] ++ [] ++ [0x55]))
      [] [0x55] [9, 9] rfl rfl).2.1 rfl,
    (read_memory_count_byte 0 0 (by decide)
      (start ⟨true, true⟩ ([STM32_ACK, STM32_ACK, STM32_ACK] ++ [] ++ [0x55]))
      [] [0x55] [9, 9] rfl rfl).2.2 ⟨true, true⟩ 0x22 0x00 0x01 0x02 0x11 0x21 0x31 0x43 0x63
      0x73 0x82 0x92 0x20 0x00 0x00 0x04 0x10 (by decide)⟩

end Fyllan
